import Mathlib

/-!
# OpenSSLPipe: a TLS adapter over a raw stream pipe

A shallow embedding of `OpenSSLPipe.cpp`.  The TLS engine (OpenSSL), the
transport pipe (`bpipe`), the clock and the logger (`Server`) are external
collaborators.  They are modelled as one deterministic environment `Env σ`:
every external call is a value of `Call` (the callee and its arguments), the
environment answers it with an integer and moves to a new state.  Every call
the code makes is appended, with its answer, to the `trace` carried by the
object, so that statements of the form "this call is made once" or "no call is
made" are statements about the trace.

Encoding of answers: a `bool` answer is true iff the integer is non-zero, a
pointer answer is `NULL` iff the integer is zero, the answer of a `void` call is
ignored.  `int64` subtraction wraps (`wrapInt64`), the narrowing cast
`static_cast<int>` wraps to 32 bits (`toInt32`).
-/

set_option linter.dupNamespace false

namespace OpenSSLPipe

/-- Log levels of `Server->Log`; the file only uses `LL_WARNING`. -/
inductive LogLevel where
  | LL_WARNING
  deriving DecidableEq, Repr

/-- Named OpenSSL constants passed as flags by `ssl_connect`. -/
inductive Flag where
  | SSL_OP_ALL
  | SSL_OP_NO_SSLv2
  | SSL_OP_NO_SSLv3
  | SSL_OP_NO_COMPRESSION
  | BIO_NOCLOSE
  | X509_CHECK_FLAG_NO_PARTIAL_WILDCARDS
  | SSL_VERIFY_PEER
  deriving DecidableEq, Repr

/-- The external calls made by `OpenSSLPipe.cpp`, with their arguments.
Pointers are integers (0 is `NULL`), buffer addresses are naturals. -/
inductive Call where
  -- TLS engine, set-up
  | SSLv23_method
  | SSL_CTX_new (method : Int)
  | SSL_CTX_set_verify_depth (ctx : Int) (depth : Int)
  | SSL_CTX_set_options (ctx : Int) (flags : List Flag)
  | SSL_CTX_set_default_verify_paths (ctx : Int)
  | BIO_new_ssl (ctx : Int) (client : Int)
  | getSocket
  | BIO_new_socket (sock : Int) (closeFlag : Flag)
  | BIO_push (bbio sbio : Int)
  | BIO_set_nbio (bbio : Int) (n : Int)
  | BIO_get_ssl (bbio : Int)
  | SSL_set_cipher_list (ssl : Int) (ciphers : String)
  | SSL_set_tlsext_host_name (ssl : Int) (hostname : String)
  | SSL_get0_param (ssl : Int)
  | X509_VERIFY_PARAM_set_hostflags (param : Int) (flag : Flag)
  | X509_VERIFY_PARAM_set1_host (param : Int) (hostname : String) (len : Nat)
  | SSL_set_hostflags (ssl : Int) (flag : Flag)
  | SSL_set1_host (ssl : Int) (hostname : String)
  | SSL_set_verify (ssl : Int) (mode : Flag)
  -- TLS engine, handshake and verification
  | BIO_do_handshake (bbio : Int)
  | BIO_should_retry (bbio : Int)
  | SSL_get_peer_certificate (ssl : Int)
  | X509_free (cert : Int)
  | SSL_get_verify_result (ssl : Int)
  | ERR_get_error
  -- TLS engine, data
  | BIO_pending (bbio : Int)
  | BIO_read (bbio : Int) (buffer : Nat) (len : Int)
  | BIO_write (bbio : Int) (buffer : Nat) (len : Int)
  -- Server
  | getTimeMS
  | Log (msg : String) (level : LogLevel)
  -- transport pipe
  | isReadOrWritable (timeoutms : Int)
  | isReadable (timeoutms : Int)
  | isWritable (timeoutms : Int)
  | doThrottle (bytes : Int) (outgoing : Bool) (wait : Bool)
  | Flush (timeoutms : Int)
  | hasError
  | shutdown
  | getNumElements
  | addThrottler (throttler : Int)
  | addOutgoingThrottler (throttler : Int)
  | addIncomingThrottler (throttler : Int)
  | getTransferedBytes
  | resetTransferedBytes
  deriving DecidableEq, Repr

/-- One entry of the trace: an external call with the integer it answered, or a
lookup of `ERR_reason_error_string` with the (nullable) string it answered. -/
inductive Event where
  | call (c : Call) (r : Int)
  | reason (code : Int) (str : Option String)
  deriving DecidableEq, Repr

/-- The environment: engine, transport, clock and logger as one deterministic
machine over states `σ`.  `ERR_reason_error_string` is a table lookup. -/
structure Env (σ : Type) where
  call : Call → σ → Int × σ
  reason : Int → σ → Option String

/-- The object `OpenSSLPipe` (fields `bbio`, `ctx`, `has_error`; `bpipe` is the
transport inside `world`), together with the state of the environment and the
trace of external calls made so far. -/
structure Pipe (σ : Type) where
  bbio : Int
  ctx : Int
  has_error : Bool
  world : σ
  trace : List Event
  deriving DecidableEq, Repr

/-- `X509_V_OK` of OpenSSL's `x509_vfy.h`. -/
def X509_V_OK : Int := 0

/-- The cipher policy string of the anonymous namespace. -/
def PREFERRED_CIPHERS : String := "HIGH:!aNULL:!kRSA:!SRP:!PSK:!CAMELLIA:!RC4:!MD5:!DSS"

/-- Two's complement wrap to `int64`. -/
def wrapInt64 (x : Int) : Int := (x + 2 ^ 63) % 2 ^ 64 - 2 ^ 63

/-- The cast `static_cast<int>(x)`: two's complement wrap to 32 bits. -/
def toInt32 (x : Int) : Int := (x + 2 ^ 31) % 2 ^ 32 - 2 ^ 31

/-- Perform one external call: ask the environment, record the call and its
answer in the trace. -/
def ext {σ : Type} (env : Env σ) (c : Call) (p : Pipe σ) : Int × Pipe σ :=
  let a := env.call c p.world
  (a.1, { p with world := a.2, trace := p.trace ++ [Event.call c a.1] })

/-- Look up `ERR_reason_error_string(code)` and record the lookup. -/
def reasonString {σ : Type} (env : Env σ) (code : Int) (p : Pipe σ) :
    Option String × Pipe σ :=
  let s := env.reason code p.world
  (s, { p with trace := p.trace ++ [Event.reason code s] })

/-- The constructor `OpenSSLPipe::OpenSSLPipe(bpipe)` (lines 10-15): `bbio` and
`ctx` are `NULL`, `has_error` is false. -/
def OpenSSLPipe {σ : Type} (bpipe : σ) : Pipe σ :=
  { bbio := 0, ctx := 0, has_error := false, world := bpipe, trace := [] }

/-- The function `Write(const char* buffer, size_t bsize, int timeoutms, bool flush)`
(lines 246-277).  The comparison `rc < bsize` converts `rc` to `size_t`; it is
only reached with `rc > 0`, where the conversion keeps the value. -/
def Write {σ : Type} (env : Env σ) (buffer : Nat) (bsize : Nat) (timeoutms : Int)
    (flush : Bool) (p : Pipe σ) : Bool × Pipe σ :=
  if bsize = 0 then (true, p)
  else
    let w := ext env (Call.isWritable timeoutms) p
    if w.1 = 0 then (false, w.2)
    else
      let r := ext env (Call.BIO_write w.2.bbio buffer (toInt32 bsize)) w.2
      if h1 : r.1 ≤ 0 then
        let q := ext env (Call.BIO_should_retry r.2.bbio) r.2
        if q.1 = 0 then (false, { q.2 with has_error := true })
        else (false, q.2)
      else
        if h2 : r.1 < bsize then
          let t := ext env (Call.doThrottle r.1 true true) r.2
          Write env (buffer + r.1.toNat) (bsize - r.1.toNat) (-1) flush t.2
        else (true, r.2)
termination_by bsize
decreasing_by
  simp only [r, w] at h1 h2 ⊢
  omega

/-- The function `log_ssl_err()` of the anonymous namespace (lines 37-49). -/
def log_ssl_err {σ : Type} (env : Env σ) (p : Pipe σ) : Pipe σ :=
  let e := ext env Call.ERR_get_error p
  if e.1 ≠ 0 then
    let s := reasonString env e.1 e.2
    match s.1 with
    | some str => (ext env (Call.Log ("OpenSSL error: " ++ str) LogLevel.LL_WARNING) s.2).2
    | none => s.2
  else e.2

/-- Lines 56-91 of `ssl_connect`: the method, the context, its verification
depth, options and trust anchors.  The answer is false when the code has
executed `return false`. -/
def ssl_setup_context {σ : Type} (env : Env σ) (p : Pipe σ) : Bool × Pipe σ :=
  let method := ext env Call.SSLv23_method p
  if method.1 = 0 then (false, log_ssl_err env method.2)
  else
    let c := ext env (Call.SSL_CTX_new method.1) method.2
    let p1 : Pipe σ := { c.2 with ctx := c.1 }
    if c.1 = 0 then (false, log_ssl_err env p1)
    else
      let p2 := (ext env (Call.SSL_CTX_set_verify_depth p1.ctx 5) p1).2
      let p3 := (ext env (Call.SSL_CTX_set_options p2.ctx
        [Flag.SSL_OP_ALL, Flag.SSL_OP_NO_SSLv2, Flag.SSL_OP_NO_SSLv3,
          Flag.SSL_OP_NO_COMPRESSION]) p2).2
      let res := ext env (Call.SSL_CTX_set_default_verify_paths p3.ctx) p3
      if res.1 ≠ 1 then (false, log_ssl_err env res.2)
      else (true, res.2)

/-- Lines 93-119 of `ssl_connect`: the engine's BIO over the transport's
socket, non-blocking, and its session `ssl`.  The answer is `none` when the code
has executed `return false`, and `some ssl` otherwise. -/
def ssl_setup_bio {σ : Type} (env : Env σ) (p : Pipe σ) : Option Int × Pipe σ :=
  let b := ext env (Call.BIO_new_ssl p.ctx 1) p
  let p1 : Pipe σ := { b.2 with bbio := b.1 }
  if b.1 = 0 then (none, log_ssl_err env p1)
  else
    let sock := ext env Call.getSocket p1
    let sbio := ext env (Call.BIO_new_socket (toInt32 sock.1) Flag.BIO_NOCLOSE) sock.2
    if sbio.1 = 0 then (none, log_ssl_err env sbio.2)
    else
      let p2 := (ext env (Call.BIO_push sbio.2.bbio sbio.1) sbio.2).2
      let p3 := (ext env (Call.BIO_set_nbio p2.bbio 1) p2).2
      let ssl := ext env (Call.BIO_get_ssl p3.bbio) p3
      if ssl.1 = 0 then (none, log_ssl_err env ssl.2)
      else (some ssl.1, ssl.2)

/-- Lines 121-149 of `ssl_connect`: cipher list, server name, host name
verification, mandatory peer verification.  The answer is false when the code
has executed `return false`.  `legacy` selects the preprocessor branch
`OPENSSL_VERSION_NUMBER < 0x10100000L`. -/
def ssl_setup_session {σ : Type} (env : Env σ) (legacy : Bool) (p_hostname : String)
    (ssl : Int) (p : Pipe σ) : Bool × Pipe σ :=
  let r1 := ext env (Call.SSL_set_cipher_list ssl PREFERRED_CIPHERS) p
  if r1.1 ≠ 1 then (false, log_ssl_err env r1.2)
  else
    let r2 := ext env (Call.SSL_set_tlsext_host_name ssl p_hostname) r1.2
    if r2.1 ≠ 1 then (false, log_ssl_err env r2.2)
    else
      let r3 :=
        if legacy then
          let param := ext env (Call.SSL_get0_param ssl) r2.2
          let f := ext env (Call.X509_VERIFY_PARAM_set_hostflags param.1
            Flag.X509_CHECK_FLAG_NO_PARTIAL_WILDCARDS) param.2
          ext env (Call.X509_VERIFY_PARAM_set1_host param.1 p_hostname
            p_hostname.utf8ByteSize) f.2
        else
          let f := ext env (Call.SSL_set_hostflags ssl
            Flag.X509_CHECK_FLAG_NO_PARTIAL_WILDCARDS) r2.2
          ext env (Call.SSL_set1_host ssl p_hostname) f.2
      if r3.1 ≠ 1 then (false, log_ssl_err env r3.2)
      else (true, (ext env (Call.SSL_set_verify ssl Flag.SSL_VERIFY_PEER) r3.2).2)

/-- Lines 56-149 of `ssl_connect`, the three parts above in sequence.  The
answer is `none` when the code has executed `return false`, and `some ssl` (the
session pointer) when it reaches line 151. -/
def ssl_setup {σ : Type} (env : Env σ) (legacy : Bool) (p_hostname : String)
    (p : Pipe σ) : Option Int × Pipe σ :=
  match ssl_setup_context env p with
  | (false, p1) => (none, p1)
  | (true, p1) =>
    match ssl_setup_bio env p1 with
    | (none, p2) => (none, p2)
    | (some ssl, p2) =>
      match ssl_setup_session env legacy p_hostname ssl p2 with
      | (false, p3) => (none, p3)
      | (true, p3) => (some ssl, p3)

/-- Lines 165-170 of `ssl_connect`: the time left, `rtime`, at clock reading
`now`; `int64` arithmetic, clamped at zero, and -1 when `timeoutms` is negative. -/
def rtime (timeoutms : Int) (starttime : Int) (now : Int) : Int :=
  let rtime0 := wrapInt64 (timeoutms - wrapInt64 (now - starttime))
  let rtime1 := if rtime0 < 0 then 0 else rtime0
  if timeoutms < 0 then -1 else rtime1

/-- The `do ... while` loop of `ssl_connect` (lines 152-175), at most `fuel`
iterations.  The answer is `none` when the fuel runs out, `some (none, _)`
when the loop has executed `return false` (line 159), and `some (some res, _)`
when the loop is left, by `break` or by its condition, with that value of `res`. -/
def handshake_loop {σ : Type} (env : Env σ) (timeoutms : Int) (starttime : Int) :
    Nat → Pipe σ → Option (Option Int × Pipe σ)
  | 0, _ => none
  | fuel + 1, p =>
    let res := ext env (Call.BIO_do_handshake p.bbio) p
    -- `res != 1 && !BIO_should_retry(bbio)`: the right operand only when the left holds
    let fatal : Bool × Pipe σ :=
      if res.1 ≠ 1 then
        let retry := ext env (Call.BIO_should_retry res.2.bbio) res.2
        (decide (retry.1 = 0), retry.2)
      else (false, res.2)
    if fatal.1 then some (none, log_ssl_err env fatal.2)
    else if res.1 = 1 then some (some res.1, fatal.2)
    else
      let now := ext env Call.getTimeMS fatal.2
      let ready := ext env
        (Call.isReadOrWritable (toInt32 (rtime timeoutms starttime now.1))) now.2
      if ready.1 = 0 then some (some res.1, ready.2)
      else
        let now2 := ext env Call.getTimeMS ready.2
        if wrapInt64 (now2.1 - starttime) < timeoutms then
          handshake_loop env timeoutms starttime fuel now2.2
        else some (some res.1, now2.2)

/-- Lines 177-206 of `ssl_connect`: what follows the loop, given the value of
`res` the loop was left with. -/
def ssl_verify {σ : Type} (env : Env σ) (p_hostname : String) (ssl : Int) (res : Int)
    (p : Pipe σ) : Bool × Pipe σ :=
  if res ≠ 1 then
    (false, (ext env (Call.Log "SSL connect timeout" LogLevel.LL_WARNING) p).2)
  else
    let cert := ext env (Call.SSL_get_peer_certificate ssl) p
    let p1 := if cert.1 ≠ 0 then (ext env (Call.X509_free cert.1) cert.2).2 else cert.2
    if cert.1 = 0 then
      (false, (ext env (Call.Log "Getting server certificate failed" LogLevel.LL_WARNING) p1).2)
    else
      let vres := ext env (Call.SSL_get_verify_result ssl) p1
      if vres.1 ≠ X509_V_OK then
        let s := reasonString env vres.1 vres.2
        match s.1 with
        | some str =>
          (false, (ext env (Call.Log ("Verifying certificate of hostname " ++ p_hostname ++
            " failed with OpenSSL error code " ++ str) LogLevel.LL_WARNING) s.2).2)
        | none => (false, s.2)
      else (true, vres.2)

/-- The function `ssl_connect(p_hostname, timeoutms)` (lines 54-207); `fuel`
bounds the number of iterations of the handshake loop, `none` means that the
bound was reached. -/
def ssl_connect {σ : Type} (env : Env σ) (legacy : Bool) (p_hostname : String)
    (timeoutms : Int) (fuel : Nat) (p : Pipe σ) : Option (Bool × Pipe σ) :=
  match ssl_setup env legacy p_hostname p with
  | (none, p1) => some (false, p1)
  | (some ssl, p1) =>
    let starttime := ext env Call.getTimeMS p1
    match handshake_loop env timeoutms starttime.1 fuel starttime.2 with
    | none => none
    | some (none, p2) => some (false, p2)
    | some (some res, p2) => some (ssl_verify env p_hostname ssl res p2)

/-- The function `Read(char* buffer, size_t bsize, int timeoutms)` (lines
209-244), at most `fuel` iterations of its loop (`none`: the bound was
reached).  `retry` is the local variable of the source. -/
def Read {σ : Type} (env : Env σ) (buffer : Nat) (bsize : Nat) (timeoutms : Int) :
    Nat → Pipe σ → Option (Nat × Pipe σ)
  | 0, _ => none
  | fuel + 1, p =>
    let pending := ext env (Call.BIO_pending p.bbio) p
    -- the readiness wait happens only when nothing is pending
    let readable : Bool × Pipe σ :=
      if pending.1 ≤ 0 then
        let r := ext env (Call.isReadable timeoutms) pending.2
        (decide (r.1 ≠ 0), r.2)
      else (true, pending.2)
    if ¬ readable.1 then some (0, readable.2)
    else
      let rc := ext env (Call.BIO_read readable.2.bbio buffer (toInt32 bsize)) readable.2
      if rc.1 ≤ 0 then
        let q := ext env (Call.BIO_should_retry rc.2.bbio) rc.2
        if q.1 = 0 then some (0, { q.2 with has_error := true })
        else
          let retry := true
          if retry then Read env buffer bsize timeoutms fuel q.2 else some (0, q.2)
      else
        let t := ext env (Call.doThrottle rc.1 false true) rc.2
        some (rc.1.toNat, t.2)

/-- The function `Read(std::string* ret, int timeoutms)` (lines 279-292);
`buffer` is the address of the local array of 8192 bytes.  The second
component says whether `ret` was assigned (the bytes are not modelled). -/
def ReadString {σ : Type} (env : Env σ) (buffer : Nat) (timeoutms : Int) (fuel : Nat)
    (p : Pipe σ) : Option ((Nat × Bool) × Pipe σ) :=
  match Read env buffer 8192 timeoutms fuel p with
  | none => none
  | some (l, p1) => if l > 0 then some ((l, true), p1) else some ((0, false), p1)

/-- The function `Write(const std::string& str, int timeoutms, bool flush)`
(lines 294-297); `str` is given by the address and the size of its bytes. -/
def WriteString {σ : Type} (env : Env σ) (str : Nat) (size : Nat) (timeoutms : Int)
    (flush : Bool) (p : Pipe σ) : Bool × Pipe σ :=
  Write env str size timeoutms flush p

/-- The function `Flush(int timeoutms)` (lines 299-302). -/
def Flush {σ : Type} (env : Env σ) (timeoutms : Int) (p : Pipe σ) : Bool × Pipe σ :=
  let r := ext env (Call.Flush timeoutms) p
  (decide (r.1 ≠ 0), r.2)

/-- The function `isWritable(int timeoutms)` (lines 304-307). -/
def isWritable {σ : Type} (env : Env σ) (timeoutms : Int) (p : Pipe σ) : Bool × Pipe σ :=
  let r := ext env (Call.isWritable timeoutms) p
  (decide (r.1 ≠ 0), r.2)

/-- The function `isReadable(int timeoutms)` (lines 309-312); `||` evaluates
its right operand only when the left one is false. -/
def isReadable {σ : Type} (env : Env σ) (timeoutms : Int) (p : Pipe σ) : Bool × Pipe σ :=
  let pending := ext env (Call.BIO_pending p.bbio) p
  if pending.1 > 0 then (true, pending.2)
  else
    let r := ext env (Call.isReadable timeoutms) pending.2
    (decide (r.1 ≠ 0), r.2)

/-- The function `hasError()` (lines 314-317). -/
def hasError {σ : Type} (env : Env σ) (p : Pipe σ) : Bool × Pipe σ :=
  if p.has_error then (true, p)
  else
    let r := ext env Call.hasError p
    (decide (r.1 ≠ 0), r.2)

/-- The function `shutdown()` (lines 319-322). -/
def shutdown {σ : Type} (env : Env σ) (p : Pipe σ) : Pipe σ :=
  (ext env Call.shutdown p).2

/-- The function `getNumElements()` (lines 324-327). -/
def getNumElements {σ : Type} (env : Env σ) (p : Pipe σ) : Int × Pipe σ :=
  ext env Call.getNumElements p

/-- The function `addThrottler(throttler)` (lines 329-332). -/
def addThrottler {σ : Type} (env : Env σ) (throttler : Int) (p : Pipe σ) : Pipe σ :=
  (ext env (Call.addThrottler throttler) p).2

/-- The function `addOutgoingThrottler(throttler)` (lines 334-337). -/
def addOutgoingThrottler {σ : Type} (env : Env σ) (throttler : Int) (p : Pipe σ) : Pipe σ :=
  (ext env (Call.addOutgoingThrottler throttler) p).2

/-- The function `addIncomingThrottler(throttler)` (lines 339-342). -/
def addIncomingThrottler {σ : Type} (env : Env σ) (throttler : Int) (p : Pipe σ) : Pipe σ :=
  (ext env (Call.addIncomingThrottler throttler) p).2

/-- The function `getTransferedBytes()` (lines 344-347). -/
def getTransferedBytes {σ : Type} (env : Env σ) (p : Pipe σ) : Int × Pipe σ :=
  ext env Call.getTransferedBytes p

/-- The function `resetTransferedBytes()` (lines 349-352). -/
def resetTransferedBytes {σ : Type} (env : Env σ) (p : Pipe σ) : Pipe σ :=
  (ext env Call.resetTransferedBytes p).2

/-- A stateless environment answering each call by a fixed function. -/
def constEnv (f : Call → Int) : Env Unit :=
  { call := fun c s => (f c, s), reason := fun _ _ => none }

/-- A scripted environment: the state is the list of answers still to give,
each call takes the next one (0 when the script is used up). -/
def scriptEnv : Env (List Int) :=
  { call := fun _ s => (s.headD 0, s.tail), reason := fun _ _ => some "reason" }

/-- The arguments of a `doThrottle` call, for the events that are one. -/
def throttleArgs : Event → Option (Int × Bool × Bool)
  | Event.call (Call.doThrottle n outgoing wait) _ => some (n, outgoing, wait)
  | _ => none

/-- The `doThrottle` calls of a trace, in order, each with its arguments
`(bytes, outgoing, wait)`. -/
def throttleCalls (evs : List Event) : List (Int × Bool × Bool) :=
  evs.filterMap throttleArgs

/-- The object `p` after the external calls recorded in `evs` have left the
environment in state `s`. -/
def after {σ : Type} (p : Pipe σ) (s : σ) (evs : List Event) : Pipe σ :=
  { p with world := s, trace := p.trace ++ evs }

/-- Diagnostic events: what `log_ssl_err` and the logger produce. -/
def isDiagnostic : Event → Bool
  | Event.call Call.ERR_get_error _ => true
  | Event.call (Call.Log _ _) _ => true
  | Event.reason _ _ => true
  | _ => false

/-- The queries made after the handshake: the peer certificate and the
verification result. -/
def isCertQuery : Event → Bool
  | Event.call (Call.SSL_get_peer_certificate _) _ => true
  | Event.call (Call.SSL_get_verify_result _) _ => true
  | _ => false

/-- Clock readings and readiness waits of the handshake loop. -/
def isClockOrWait : Event → Bool
  | Event.call Call.getTimeMS _ => true
  | Event.call (Call.isReadOrWritable _) _ => true
  | _ => false

/-- Handshake steps. -/
def isHandshakeStep : Event → Bool
  | Event.call (Call.BIO_do_handshake _) _ => true
  | _ => false

/-- The events of the set-up phase: none of them is a handshake step, a clock
reading, a readiness wait, a certificate query or a `doThrottle`. -/
def isSetupEvent (e : Event) : Bool :=
  !isCertQuery e && !isClockOrWait e && !isHandshakeStep e && (throttleArgs e).isNone

/-- The events of the handshake loop: no certificate query, no `doThrottle`. -/
def isLoopEvent (e : Event) : Bool :=
  !isCertQuery e && (throttleArgs e).isNone

/-- The object `p'` is `p` after some external calls, all of them satisfying
`P`, with `has_error` and `bbio` as before. -/
def Advances {σ : Type} (P : Event → Bool) (p p' : Pipe σ) : Prop :=
  p'.has_error = p.has_error ∧
    ∃ evs : List Event, p'.trace = p.trace ++ evs ∧ ∀ e ∈ evs, P e = true

/-- The requested length and the answer of a `BIO_write` call, for the events
that are one. -/
def writeArgs : Event → Option (Int × Int)
  | Event.call (Call.BIO_write _ _ len) rc => some (len, rc)
  | _ => none

/-- The engine writes of a trace, in order, each as `(len, rc)`: the length
passed to `BIO_write` and its answer. -/
def engineWrites (evs : List Event) : List (Int × Int) :=
  evs.filterMap writeArgs

/-- The sum of the positive engine-write results of a trace. -/
def positiveWriteSum (evs : List Event) : Int :=
  (((engineWrites evs).map Prod.snd).filter (fun rc => decide (0 < rc))).sum

/-- The sum of the byte counts reported to `doThrottle` with `outgoing = true`. -/
def outgoingThrottled (evs : List Event) : Int :=
  (((throttleCalls evs).filter (fun a => a.2.1)).map (fun a => a.1)).sum

/-- The value read from the clock, for the events that are a clock reading. -/
def clockReading : Event → Option Int
  | Event.call Call.getTimeMS t => some t
  | _ => none

/-- The clock readings of a trace, in order. -/
def clockReadings (evs : List Event) : List Int :=
  evs.filterMap clockReading

/-- The clock of a trace is a real `int64` millisecond clock: its readings
are non-negative `int64` values and never decrease. -/
def ClockOk (evs : List Event) : Prop :=
  List.Pairwise (fun a b => a ≤ b) (clockReadings evs) ∧
    ∀ t ∈ clockReadings evs, 0 ≤ t ∧ t < 2 ^ 63

/-- Every readiness wait `isReadOrWritable(b)` of the trace comes right after a
clock reading `t`, and its bound is `b = max 0 (T - (t - start))`, which lies
in `[0, T]`.  `prev` is the clock reading made by the event just before the
trace, if that event was one. -/
def waitBoundsFrom (T start : Int) : Option Int → List Event → Prop
  | _, [] => True
  | prev, e :: rest =>
    match e with
    | Event.call (Call.isReadOrWritable b) _ =>
      (match prev with
        | some t => b = max 0 (T - (t - start)) ∧ 0 ≤ b ∧ b ≤ T
        | none => False) ∧ waitBoundsFrom T start none rest
    | Event.call Call.getTimeMS t => waitBoundsFrom T start (some t) rest
    | _ => waitBoundsFrom T start none rest

/-- An environment whose peer never responds: every handshake step answers
-1 with the retry flag set, the transport is never ready, the clock stands at
0, and every other call answers 1. -/
def stalledEnv : Env Unit :=
  constEnv (fun c =>
    match c with
    | Call.BIO_do_handshake _ => -1
    | Call.BIO_should_retry _ => 1
    | Call.isReadOrWritable _ => 0
    | Call.getTimeMS => 0
    | _ => 1)

/-- The answers of a set-up that succeeds (method 1, context 2, BIO 3, socket
7, socket BIO 4, session 5), in the order of the calls of lines 56-149. -/
def setupScript : List Int := [1, 2, 0, 0, 1, 3, 7, 4, 0, 0, 5, 1, 1, 0, 1, 0]

/-- The events of the set-up answered by `setupScript`, for host name `h`. -/
def setupEvents : List Event :=
  [Event.call Call.SSLv23_method 1,
    Event.call (Call.SSL_CTX_new 1) 2,
    Event.call (Call.SSL_CTX_set_verify_depth 2 5) 0,
    Event.call (Call.SSL_CTX_set_options 2 [Flag.SSL_OP_ALL, Flag.SSL_OP_NO_SSLv2,
      Flag.SSL_OP_NO_SSLv3, Flag.SSL_OP_NO_COMPRESSION]) 0,
    Event.call (Call.SSL_CTX_set_default_verify_paths 2) 1,
    Event.call (Call.BIO_new_ssl 2 1) 3,
    Event.call Call.getSocket 7,
    Event.call (Call.BIO_new_socket 7 Flag.BIO_NOCLOSE) 4,
    Event.call (Call.BIO_push 3 4) 0,
    Event.call (Call.BIO_set_nbio 3 1) 0,
    Event.call (Call.BIO_get_ssl 3) 5,
    Event.call (Call.SSL_set_cipher_list 5 PREFERRED_CIPHERS) 1,
    Event.call (Call.SSL_set_tlsext_host_name 5 "h") 1,
    Event.call (Call.SSL_set_hostflags 5 Flag.X509_CHECK_FLAG_NO_PARTIAL_WILDCARDS) 0,
    Event.call (Call.SSL_set1_host 5 "h") 1,
    Event.call (Call.SSL_set_verify 5 Flag.SSL_VERIFY_PEER) 0]

/-- A peer that answers the second handshake step: the set-up succeeds, the
clock stands at 100, the first handshake step answers -1 with the retry flag
set, the transport is ready, the second step answers 1, the certificate is
non-null (9) and the verification result is `X509_V_OK`. -/
def retryThenSuccessScript : List Int :=
  setupScript ++ [100, -1, 1, 100, 1, 100, 1, 9, 0, 0]

/-- The events of the handshake answered by `retryThenSuccessScript` when the
deadline is 50 ms. -/
def retryThenSuccessEvents : List Event :=
  setupEvents ++
    [Event.call Call.getTimeMS 100,
      Event.call (Call.BIO_do_handshake 3) (-1),
      Event.call (Call.BIO_should_retry 3) 1,
      Event.call Call.getTimeMS 100,
      Event.call (Call.isReadOrWritable 50) 1,
      Event.call Call.getTimeMS 100,
      Event.call (Call.BIO_do_handshake 3) 1,
      Event.call (Call.SSL_get_peer_certificate 5) 9,
      Event.call (Call.X509_free 9) 0,
      Event.call (Call.SSL_get_verify_result 5) 0]

/-- The operations of an `OpenSSLPipe` object, with their arguments. -/
inductive Op where
  | ssl_connect (legacy : Bool) (p_hostname : String) (timeoutms : Int)
  | Read (buffer bsize : Nat) (timeoutms : Int)
  | ReadString (buffer : Nat) (timeoutms : Int)
  | Write (buffer bsize : Nat) (timeoutms : Int) (flush : Bool)
  | WriteString (str size : Nat) (timeoutms : Int) (flush : Bool)
  | Flush (timeoutms : Int)
  | isWritable (timeoutms : Int)
  | isReadable (timeoutms : Int)
  | hasError
  | shutdown
  | getNumElements
  | addThrottler (throttler : Int)
  | addOutgoingThrottler (throttler : Int)
  | addIncomingThrottler (throttler : Int)
  | getTransferedBytes
  | resetTransferedBytes
  deriving DecidableEq, Repr

/-- The object after an operation (`none`: a loop reached the bound `fuel`). -/
def runOp {σ : Type} (env : Env σ) (fuel : Nat) : Op → Pipe σ → Option (Pipe σ)
  | Op.ssl_connect legacy h t, p => (ssl_connect env legacy h t fuel p).map Prod.snd
  | Op.Read buffer bsize t, p => (Read env buffer bsize t fuel p).map Prod.snd
  | Op.ReadString buffer t, p => (ReadString env buffer t fuel p).map Prod.snd
  | Op.Write buffer bsize t flush, p => some (Write env buffer bsize t flush p).2
  | Op.WriteString str size t flush, p => some (WriteString env str size t flush p).2
  | Op.Flush t, p => some (Flush env t p).2
  | Op.isWritable t, p => some (isWritable env t p).2
  | Op.isReadable t, p => some (isReadable env t p).2
  | Op.hasError, p => some (hasError env p).2
  | Op.shutdown, p => some (shutdown env p)
  | Op.getNumElements, p => some (getNumElements env p).2
  | Op.addThrottler th, p => some (addThrottler env th p)
  | Op.addOutgoingThrottler th, p => some (addOutgoingThrottler env th p)
  | Op.addIncomingThrottler th, p => some (addIncomingThrottler env th p)
  | Op.getTransferedBytes, p => some (getTransferedBytes env p).2
  | Op.resetTransferedBytes, p => some (resetTransferedBytes env p)

/-! ## Properties -/

theorem ext_fst {σ : Type} (env : Env σ) (c : Call) (p : Pipe σ) :
    (ext env c p).1 = (env.call c p.world).1 := rfl

theorem ext_world {σ : Type} (env : Env σ) (c : Call) (p : Pipe σ) :
    (ext env c p).2.world = (env.call c p.world).2 := rfl

@[simp] theorem ext_has_error {σ : Type} (env : Env σ) (c : Call) (p : Pipe σ) :
    (ext env c p).2.has_error = p.has_error := rfl

@[simp] theorem ext_bbio {σ : Type} (env : Env σ) (c : Call) (p : Pipe σ) :
    (ext env c p).2.bbio = p.bbio := rfl

@[simp] theorem ext_ctx {σ : Type} (env : Env σ) (c : Call) (p : Pipe σ) :
    (ext env c p).2.ctx = p.ctx := rfl

@[simp] theorem ext_trace {σ : Type} (env : Env σ) (c : Call) (p : Pipe σ) :
    (ext env c p).2.trace = p.trace ++ [Event.call c (env.call c p.world).1] := rfl

@[simp] theorem reasonString_has_error {σ : Type} (env : Env σ) (code : Int) (p : Pipe σ) :
    (reasonString env code p).2.has_error = p.has_error := rfl

@[simp] theorem reasonString_bbio {σ : Type} (env : Env σ) (code : Int) (p : Pipe σ) :
    (reasonString env code p).2.bbio = p.bbio := rfl

@[simp] theorem reasonString_trace {σ : Type} (env : Env σ) (code : Int) (p : Pipe σ) :
    (reasonString env code p).2.trace =
      p.trace ++ [Event.reason code (env.reason code p.world)] := rfl

@[simp] theorem log_ssl_err_has_error {σ : Type} (env : Env σ) (p : Pipe σ) :
    (log_ssl_err env p).has_error = p.has_error := by
  unfold log_ssl_err
  simp only
  split_ifs
  · split <;> simp
  · simp

theorem Advances.refl {σ : Type} (P : Event → Bool) (p : Pipe σ) : Advances P p p :=
  ⟨rfl, [], by simp, by simp⟩

theorem Advances.trans {σ : Type} {P : Event → Bool} {p q r : Pipe σ}
    (h1 : Advances P p q) (h2 : Advances P q r) : Advances P p r := by
  obtain ⟨e1, xs, hx, hxs⟩ := h1
  obtain ⟨e2, ys, hy, hys⟩ := h2
  refine ⟨by rw [e2, e1], xs ++ ys, by rw [hy, hx, List.append_assoc], ?_⟩
  intro e he
  rcases List.mem_append.mp he with h | h
  · exact hxs e h
  · exact hys e h

theorem Advances.ext {σ : Type} {P : Event → Bool} {p q : Pipe σ} (env : Env σ) (c : Call)
    (hc : ∀ r, P (Event.call c r) = true) (h : Advances P p q) :
    Advances P p (ext env c q).2 :=
  h.trans ⟨rfl, [Event.call c (env.call c q.world).1], rfl, by simp [hc]⟩

theorem Advances.set_ctx {σ : Type} {P : Event → Bool} {p q : Pipe σ} (v : Int)
    (h : Advances P p q) : Advances P p { q with ctx := v } := h

theorem Advances.set_bbio {σ : Type} {P : Event → Bool} {p q : Pipe σ} (v : Int)
    (h : Advances P p q) : Advances P p { q with bbio := v } := h

theorem Advances.log_ssl_err {σ : Type} {P : Event → Bool} {p q : Pipe σ} (env : Env σ)
    (hP : ∀ e, isDiagnostic e = true → P e = true) (h : Advances P p q) :
    Advances P p (log_ssl_err env q) := by
  refine h.trans ?_
  unfold OpenSSLPipe.log_ssl_err
  simp only
  split_ifs
  · split
    · exact ⟨by simp, _, by simp only [ext_trace, reasonString_trace, List.append_assoc]; rfl,
        by simp [hP, isDiagnostic]⟩
    · exact ⟨by simp, _, by simp only [ext_trace, reasonString_trace, List.append_assoc]; rfl,
        by simp [hP, isDiagnostic]⟩
  · exact ⟨by simp, _, by simp only [ext_trace]; rfl, by simp [hP, isDiagnostic]⟩

theorem isSetupEvent_of_isDiagnostic (e : Event) (h : isDiagnostic e = true) :
    isSetupEvent e = true := by
  cases e with
  | reason c s => rfl
  | call c r => cases c <;> first | rfl | simp [isDiagnostic] at h

theorem isLoopEvent_of_isDiagnostic (e : Event) (h : isDiagnostic e = true) :
    isLoopEvent e = true := by
  cases e with
  | reason c s => rfl
  | call c r => cases c <;> first | rfl | simp [isDiagnostic] at h

theorem ssl_setup_context_advances {σ : Type} (env : Env σ) (p : Pipe σ) :
    Advances isSetupEvent p (ssl_setup_context env p).2 := by
  unfold ssl_setup_context
  simp only
  split_ifs
  all_goals
    repeat' first
      | exact Advances.refl _ _
      | apply Advances.log_ssl_err env isSetupEvent_of_isDiagnostic
      | apply Advances.set_ctx
      | apply Advances.ext env _ (fun _ => rfl)

theorem ssl_setup_bio_advances {σ : Type} (env : Env σ) (p : Pipe σ) :
    Advances isSetupEvent p (ssl_setup_bio env p).2 := by
  unfold ssl_setup_bio
  simp only
  split_ifs
  all_goals
    repeat' first
      | exact Advances.refl _ _
      | apply Advances.log_ssl_err env isSetupEvent_of_isDiagnostic
      | apply Advances.set_bbio
      | apply Advances.ext env _ (fun _ => rfl)

theorem ssl_setup_session_advances {σ : Type} (env : Env σ) (legacy : Bool) (h : String)
    (ssl : Int) (p : Pipe σ) :
    Advances isSetupEvent p (ssl_setup_session env legacy h ssl p).2 := by
  unfold ssl_setup_session
  cases legacy
  all_goals
    simp only
    split_ifs
    all_goals
      repeat' first
        | exact Advances.refl _ _
        | apply Advances.log_ssl_err env isSetupEvent_of_isDiagnostic
        | apply Advances.ext env _ (fun _ => rfl)

theorem ssl_setup_advances {σ : Type} (env : Env σ) (legacy : Bool) (h : String)
    (p : Pipe σ) : Advances isSetupEvent p (ssl_setup env legacy h p).2 := by
  unfold ssl_setup
  have h1 := ssl_setup_context_advances env p
  split
  · rename_i p1 heq; rw [heq] at h1; exact h1
  · rename_i p1 heq
    rw [heq] at h1
    have h2 := ssl_setup_bio_advances env p1
    split
    · rename_i p2 heq2; rw [heq2] at h2; exact h1.trans h2
    · rename_i ssl p2 heq2
      rw [heq2] at h2
      have h3 := ssl_setup_session_advances env legacy h ssl p2
      split
      · rename_i p3 heq3; rw [heq3] at h3; exact (h1.trans h2).trans h3
      · rename_i p3 heq3; rw [heq3] at h3; exact (h1.trans h2).trans h3

theorem ssl_setup_has_error {σ : Type} (env : Env σ) (legacy : Bool) (h : String)
    (p : Pipe σ) : (ssl_setup env legacy h p).2.has_error = p.has_error :=
  (ssl_setup_advances env legacy h p).1

/-- One iteration of the handshake loop, in terms of the answers of the
environment: `res` of the handshake step, `q` of `BIO_should_retry`, the clock
reading `now`, `ready` of the readiness wait and the clock reading `now2`. -/
theorem handshake_loop_succ {σ : Type} (env : Env σ) (t st : Int) (fuel : Nat)
    (p : Pipe σ) (res q now ready now2 : Int) (s1 s2 s3 s4 s5 : σ)
    (hh : env.call (Call.BIO_do_handshake p.bbio) p.world = (res, s1))
    (hq : env.call (Call.BIO_should_retry p.bbio) s1 = (q, s2))
    (hn : env.call Call.getTimeMS s2 = (now, s3))
    (hrw : env.call (Call.isReadOrWritable (toInt32 (rtime t st now))) s3 = (ready, s4))
    (hn2 : env.call Call.getTimeMS s4 = (now2, s5)) :
    handshake_loop env t st (fuel + 1) p =
      if res = 1 then
        some (some res, after p s1 [Event.call (Call.BIO_do_handshake p.bbio) res])
      else if q = 0 then
        some (none, log_ssl_err env (after p s2 [Event.call (Call.BIO_do_handshake p.bbio) res,
          Event.call (Call.BIO_should_retry p.bbio) q]))
      else if ready = 0 then
        some (some res, after p s4 [Event.call (Call.BIO_do_handshake p.bbio) res,
          Event.call (Call.BIO_should_retry p.bbio) q, Event.call Call.getTimeMS now,
          Event.call (Call.isReadOrWritable (toInt32 (rtime t st now))) ready])
      else if wrapInt64 (now2 - st) < t then
        handshake_loop env t st fuel
          (after p s5 [Event.call (Call.BIO_do_handshake p.bbio) res,
            Event.call (Call.BIO_should_retry p.bbio) q, Event.call Call.getTimeMS now,
            Event.call (Call.isReadOrWritable (toInt32 (rtime t st now))) ready,
            Event.call Call.getTimeMS now2])
      else
        some (some res, after p s5 [Event.call (Call.BIO_do_handshake p.bbio) res,
          Event.call (Call.BIO_should_retry p.bbio) q, Event.call Call.getTimeMS now,
          Event.call (Call.isReadOrWritable (toInt32 (rtime t st now))) ready,
          Event.call Call.getTimeMS now2]) := by
  by_cases h1 : res = 1
  · simp [handshake_loop, ext, after, hh, h1]
  by_cases h2 : q = 0
  · simp [handshake_loop, ext, after, hh, hq, h1, h2]
  by_cases h3 : ready = 0
  · simp [handshake_loop, ext, after, hh, hq, hn, hrw, h1, h2, h3]
  by_cases h4 : wrapInt64 (now2 - st) < t
  · simp [handshake_loop, ext, after, hh, hq, hn, hrw, hn2, h1, h2, h3, h4]
  · simp [handshake_loop, ext, after, hh, hq, hn, hrw, hn2, h1, h2, h3, h4]

theorem handshake_loop_has_error {σ : Type} (env : Env σ) (t st : Int) :
    ∀ (fuel : Nat) (p : Pipe σ) (r : Option Int) (p' : Pipe σ),
      handshake_loop env t st fuel p = some (r, p') → p'.has_error = p.has_error := by
  intro fuel
  induction fuel with
  | zero => intro p r p' h; simp [handshake_loop] at h
  | succ n ih =>
    intro p r p' h
    simp only [handshake_loop] at h
    split_ifs at h
    all_goals first
      | (have hx := ih _ _ _ h; simpa using hx)
      | (simp only [Option.some.injEq, Prod.mk.injEq] at h
         obtain ⟨-, hp⟩ := h
         subst hp
         simp)

theorem ssl_verify_has_error {σ : Type} (env : Env σ) (h : String) (ssl res : Int)
    (p : Pipe σ) : (ssl_verify env h ssl res p).2.has_error = p.has_error := by
  unfold ssl_verify
  simp only
  split_ifs
  all_goals first
    | simp
    | (split <;> simp)

/-- The three ways in which `ssl_connect` returns: from the set-up, from
inside the loop (line 159), or through lines 177-206 after the loop. -/
theorem ssl_connect_cases {σ : Type} (env : Env σ) (legacy : Bool) (h : String)
    (t : Int) (fuel : Nat) (p : Pipe σ) (b : Bool) (p' : Pipe σ)
    (hc : ssl_connect env legacy h t fuel p = some (b, p')) :
    (ssl_setup env legacy h p = (none, p') ∧ b = false) ∨
    (∃ (ssl : Int) (p1 : Pipe σ), ssl_setup env legacy h p = (some ssl, p1) ∧
      ((handshake_loop env t (ext env Call.getTimeMS p1).1 fuel (ext env Call.getTimeMS p1).2
          = some (none, p') ∧ b = false) ∨
        (∃ (res : Int) (p2 : Pipe σ),
          handshake_loop env t (ext env Call.getTimeMS p1).1 fuel
            (ext env Call.getTimeMS p1).2 = some (some res, p2) ∧
          ssl_verify env h ssl res p2 = (b, p')))) := by
  unfold ssl_connect at hc
  split at hc
  · rename_i p1 heq
    simp only [Option.some.injEq, Prod.mk.injEq] at hc
    left
    rw [heq, ← hc.2, ← hc.1]
    exact ⟨rfl, rfl⟩
  · rename_i ssl p1 heq
    right
    refine ⟨ssl, p1, heq, ?_⟩
    simp only at hc
    split at hc
    · simp at hc
    · rename_i p2 hl
      simp only [Option.some.injEq, Prod.mk.injEq] at hc
      left
      rw [hl, ← hc.2, ← hc.1]
      exact ⟨rfl, rfl⟩
    · rename_i res p2 hl
      simp only [Option.some.injEq] at hc
      right
      exact ⟨res, p2, hl, hc⟩

theorem ssl_connect_has_error {σ : Type} (env : Env σ) (legacy : Bool) (h : String)
    (t : Int) (fuel : Nat) (p : Pipe σ) (b : Bool) (p' : Pipe σ)
    (hc : ssl_connect env legacy h t fuel p = some (b, p')) :
    p'.has_error = p.has_error := by
  have hs := ssl_setup_has_error env legacy h p
  rcases ssl_connect_cases env legacy h t fuel p b p' hc with ⟨h1, -⟩ | ⟨ssl, p1, h1, h2⟩
  · rw [h1] at hs; exact hs
  · rw [h1] at hs
    rcases h2 with ⟨hl, -⟩ | ⟨res, p2, hl, hv⟩
    · have := handshake_loop_has_error env t _ fuel _ _ _ hl
      rw [this]; simpa using hs
    · have := handshake_loop_has_error env t _ fuel _ _ _ hl
      have hv2 := ssl_verify_has_error env h ssl res p2
      rw [hv] at hv2
      rw [hv2, this]; simpa using hs

theorem Read_has_error_mono {σ : Type} (env : Env σ) (buffer bsize : Nat) (t : Int) :
    ∀ (fuel : Nat) (p : Pipe σ) (k : Nat) (p' : Pipe σ),
      Read env buffer bsize t fuel p = some (k, p') → p.has_error = true →
      p'.has_error = true := by
  intro fuel
  induction fuel with
  | zero => intro p k p' h; simp [Read] at h
  | succ n ih =>
    intro p k p' h he
    simp only [Read] at h
    split_ifs at h
    all_goals first
      | (refine ih _ _ _ h ?_; simpa using he)
      | (simp only [Option.some.injEq, Prod.mk.injEq] at h
         obtain ⟨-, hp⟩ := h
         subst hp
         simp [he])

theorem Write_has_error_mono {σ : Type} (env : Env σ) (flush : Bool) :
    ∀ (bsize buffer : Nat) (t : Int) (p : Pipe σ), p.has_error = true →
      (Write env buffer bsize t flush p).2.has_error = true := by
  intro bsize
  induction bsize using Nat.strong_induction_on with
  | _ n ih =>
    intro buffer t p he
    rw [Write]
    simp only
    split_ifs with h0 h1 h2 h3 h4
    all_goals first
      | (refine ih _ (by omega) _ _ _ ?_; simpa using he)
      | simp [he]

/-- C8.  A zero-length write returns true and leaves the object, the
environment and the trace as they were: no `isWritable`, no engine write, no
`doThrottle`, and `has_error` keeps its value. -/
theorem Write_zero_length {σ : Type} (env : Env σ) (buffer : Nat) (timeoutms : Int)
    (flush : Bool) (p : Pipe σ) :
    Write env buffer 0 timeoutms flush p = (true, p) ∧
      (Write env buffer 0 timeoutms flush p).2.trace = p.trace ∧
      (Write env buffer 0 timeoutms flush p).2.has_error = p.has_error := by
  have h : Write env buffer 0 timeoutms flush p = (true, p) := by
    rw [Write]; simp
  simp [h]

/-- C6.  A write of `bsize > 0` bytes whose transport is writable (answer `w`,
non-zero) and whose engine write answers `rc ≤ 0` returns false after exactly
three external calls (`isWritable`, `BIO_write`, `BIO_should_retry`); with `q`
the answer of `BIO_should_retry`, `has_error` becomes true when `q = 0` (no
retry signal) and keeps its value when `q ≠ 0`. -/
theorem Write_failure {σ : Type} (env : Env σ) (buffer bsize : Nat) (timeoutms : Int)
    (flush : Bool) (p : Pipe σ) (w rc q : Int) (s1 s2 s3 : σ)
    (hsize : 0 < bsize)
    (hw : env.call (Call.isWritable timeoutms) p.world = (w, s1)) (hw0 : w ≠ 0)
    (hr : env.call (Call.BIO_write p.bbio buffer (toInt32 bsize)) s1 = (rc, s2))
    (hrc : rc ≤ 0)
    (hq : env.call (Call.BIO_should_retry p.bbio) s2 = (q, s3)) :
    Write env buffer bsize timeoutms flush p =
      (false, { p with
        world := s3
        has_error := if q = 0 then true else p.has_error
        trace := p.trace ++ [Event.call (Call.isWritable timeoutms) w,
          Event.call (Call.BIO_write p.bbio buffer (toInt32 bsize)) rc,
          Event.call (Call.BIO_should_retry p.bbio) q] }) := by
  rw [Write]
  have hb : bsize ≠ 0 := by omega
  by_cases hq0 : q = 0 <;> simp [ext, hw, hr, hq, hb, hw0, hrc, hq0]

/-- The hard-failure exit of `Read`, in whatever round it is taken: when the
last external call of a `Read` is a `BIO_should_retry` answering 0, the `Read`
returns 0 and `has_error` is true. -/
theorem Read_last_no_retry {σ : Type} (env : Env σ) (buffer bsize : Nat) (timeoutms : Int) :
    ∀ (fuel : Nat) (p : Pipe σ) (k : Nat) (p' : Pipe σ) (b : Int),
      Read env buffer bsize timeoutms fuel p = some (k, p') →
      p'.trace.getLast? = some (Event.call (Call.BIO_should_retry b) 0) →
      k = 0 ∧ p'.has_error = true := by
  intro fuel
  induction fuel with
  | zero => intro p k p' b h; simp [Read] at h
  | succ n ih =>
    intro p k p' b h hl
    simp only [Read] at h
    split_ifs at h with h1 h2 h3 h4
    all_goals first
      | exact ih _ _ _ _ h hl
      | (simp only [Option.some.injEq, Prod.mk.injEq] at h
         obtain ⟨hk, hp⟩ := h
         subst hp
         simp [ext] at hl ⊢
         try omega)

/-- C7.  (1) When `BIO_pending` answers `pend ≤ 0` and the transport's
`isReadable(timeoutms)` answers 0, `Read` returns 0 after exactly these two
external calls (no `BIO_read`) and `has_error` keeps its value.  (2) When the
engine read is reached (something is pending, or the transport is readable) and
answers `rc ≤ 0` while `BIO_should_retry` answers 0, `Read` returns 0 and
`has_error` is true.  (3) The same in whatever round of the loop: a `Read`
whose last external call is a `BIO_should_retry` answering 0 returns 0 with
`has_error` true. -/
theorem Read_no_data_is_not_an_error {σ : Type} (env : Env σ) (buffer bsize : Nat)
    (timeoutms : Int) (fuel : Nat) (p : Pipe σ) :
    (∀ (pend : Int) (s1 s2 : σ),
      env.call (Call.BIO_pending p.bbio) p.world = (pend, s1) → pend ≤ 0 →
      env.call (Call.isReadable timeoutms) s1 = (0, s2) →
      Read env buffer bsize timeoutms (fuel + 1) p =
        some (0, { p with
          world := s2
          trace := p.trace ++ [Event.call (Call.BIO_pending p.bbio) pend,
            Event.call (Call.isReadable timeoutms) 0] })) ∧
    (∀ (pend r rc : Int) (s1 s2 s3 s4 : σ),
      env.call (Call.BIO_pending p.bbio) p.world = (pend, s1) →
      (pend ≤ 0 → env.call (Call.isReadable timeoutms) s1 = (r, s2) ∧ r ≠ 0) →
      (0 < pend → s2 = s1) →
      env.call (Call.BIO_read p.bbio buffer (toInt32 bsize)) s2 = (rc, s3) → rc ≤ 0 →
      env.call (Call.BIO_should_retry p.bbio) s3 = (0, s4) →
      Read env buffer bsize timeoutms (fuel + 1) p =
        some (0, { p with
          world := s4
          has_error := true
          trace := p.trace ++ (Event.call (Call.BIO_pending p.bbio) pend ::
            (if pend ≤ 0 then [Event.call (Call.isReadable timeoutms) r] else []) ++
            [Event.call (Call.BIO_read p.bbio buffer (toInt32 bsize)) rc,
              Event.call (Call.BIO_should_retry p.bbio) 0]) })) ∧
    (∀ (k : Nat) (p' : Pipe σ) (b : Int),
      Read env buffer bsize timeoutms fuel p = some (k, p') →
      p'.trace.getLast? = some (Event.call (Call.BIO_should_retry b) 0) →
      k = 0 ∧ p'.has_error = true) := by
  refine ⟨?_, ?_, ?_⟩
  · intro pend s1 s2 hp hpend hr
    simp [Read, ext, hp, hpend, hr]
  · intro pend r rc s1 s2 s3 s4 hp hready hpos hread hrc hq
    by_cases hpend : pend ≤ 0
    · obtain ⟨hr, hr0⟩ := hready hpend
      simp [Read, ext, hp, hpend, hr, hr0, hread, hrc, hq]
    · have hs : s2 = s1 := hpos (by omega)
      subst hs
      simp [Read, ext, hp, hpend, hread, hrc, hq]
  · intro k p' b h hl
    exact Read_last_no_retry env buffer bsize timeoutms fuel p k p' b h hl

/-- C5.  `has_error` is false after construction, and every operation of the
object (`ssl_connect`, both `Read` forms, both `Write` forms, `Flush`,
`isReadable`, `isWritable`, `hasError`, `shutdown`, `getNumElements`, the
throttler and byte-counter passthroughs), whatever the environment answers,
leaves `has_error` true when it was true before. -/
theorem has_error_sticky {σ : Type} (env : Env σ) :
    (∀ bpipe : σ, (OpenSSLPipe bpipe).has_error = false) ∧
    (∀ (op : Op) (fuel : Nat) (p p' : Pipe σ),
      p.has_error = true → runOp env fuel op p = some p' → p'.has_error = true) := by
  refine ⟨fun _ => rfl, ?_⟩
  intro op fuel p p' he hrun
  cases op with
  | ssl_connect legacy h t =>
    simp only [runOp, Option.map_eq_some', Prod.exists, exists_eq_right] at hrun
    obtain ⟨b, hb⟩ := hrun
    rw [ssl_connect_has_error env legacy h t fuel p b p' hb]; exact he
  | Read buffer bsize t =>
    simp only [runOp, Option.map_eq_some', Prod.exists, exists_eq_right] at hrun
    obtain ⟨k, hk⟩ := hrun
    exact Read_has_error_mono env buffer bsize t fuel p k p' hk he
  | ReadString buffer t =>
    simp only [runOp, Option.map_eq_some', Prod.exists, exists_eq_right] at hrun
    obtain ⟨k, hk⟩ := hrun
    unfold ReadString at hk
    split at hk
    · simp at hk
    · rename_i l p1 hr
      have := Read_has_error_mono env buffer 8192 t fuel p l p1 hr he
      split_ifs at hk <;> simp at hk <;> rw [← hk.2] <;> exact this
  | Write buffer bsize t flush =>
    simp only [runOp, Option.some.injEq] at hrun
    rw [← hrun]; exact Write_has_error_mono env flush bsize buffer t p he
  | WriteString str size t flush =>
    simp only [runOp, Option.some.injEq, WriteString] at hrun
    rw [← hrun]; exact Write_has_error_mono env flush size str t p he
  | hasError =>
    simp only [runOp, Option.some.injEq, hasError] at hrun
    rw [← hrun]; simp [he]
  | isReadable t =>
    simp only [runOp, Option.some.injEq, isReadable] at hrun
    rw [← hrun]; split_ifs <;> simp [he]
  | _ =>
    simp only [runOp, Option.some.injEq, Flush, isWritable, shutdown, getNumElements,
      addThrottler, addOutgoingThrottler, addIncomingThrottler, getTransferedBytes,
      resetTransferedBytes] at hrun
    rw [← hrun]; simp [he]

/-- C4.  A `Read` that returns `k > 0` has called `doThrottle` exactly once,
with byte count `k`, `outgoing = false` and `wait = true`, however many retry
rounds came first; a `Read` that returns 0 has not called `doThrottle`. -/
theorem Read_inbound_accounting {σ : Type} (env : Env σ) (buffer bsize : Nat)
    (timeoutms : Int) (fuel : Nat) (p : Pipe σ) (k : Nat) (p' : Pipe σ)
    (h : Read env buffer bsize timeoutms fuel p = some (k, p')) :
    ∃ evs : List Event, p'.trace = p.trace ++ evs ∧
      (0 < k → throttleCalls evs = [((k : Int), false, true)]) ∧
      (k = 0 → throttleCalls evs = []) := by
  revert p k p'
  induction fuel with
  | zero => intro p k p' h; simp [Read] at h
  | succ n ih =>
    intro p k p' h
    simp only [Read] at h
    split_ifs at h with h1 h2 h3 h4
    all_goals first
      | (obtain ⟨evs, htr, hpos, hzero⟩ := ih _ _ _ h
         apply Exists.intro
         refine ⟨?_, ?_, ?_⟩
         · rw [htr]; simp only [ext_trace, List.append_assoc]; rfl
         · intro hk; simpa [throttleCalls, throttleArgs] using hpos hk
         · intro hk; simpa [throttleCalls, throttleArgs] using hzero hk)
      | (simp only [Option.some.injEq, Prod.mk.injEq] at h
         obtain ⟨hk, hp⟩ := h
         subst hp hk
         apply Exists.intro
         refine ⟨?_, ?_, ?_⟩
         · simp only [ext_trace, List.append_assoc]; rfl
         · intro hk
           first
             | omega
             | (simp [throttleCalls, throttleArgs, ext_fst] at *; omega)
         · intro hk
           first
             | (simp [throttleCalls, throttleArgs]; done)
             | (simp [ext_fst] at *; omega))

theorem toInt32_le_self (n : Nat) : toInt32 (n : Int) ≤ (n : Int) := by
  unfold toInt32
  norm_num
  omega

theorem positiveWriteSum_nil : positiveWriteSum [] = 0 := rfl

theorem positiveWriteSum_cons (e : Event) (evs : List Event) :
    positiveWriteSum (e :: evs) =
      (match writeArgs e with
        | some a => if 0 < a.2 then a.2 else 0
        | none => 0) + positiveWriteSum evs := by
  cases h : writeArgs e with
  | none => simp [positiveWriteSum, engineWrites, h]
  | some a =>
    by_cases h2 : 0 < a.2 <;> simp [positiveWriteSum, engineWrites, h, h2]

/-- The positive engine-write results of a successful `Write` of `bsize` bytes
sum to at least `bsize`, and to exactly `bsize` when no engine write answers
more than the length it was given. -/
theorem Write_success_sum {σ : Type} (env : Env σ) (flush : Bool) :
    ∀ (bsize buffer : Nat) (t : Int) (p p' : Pipe σ),
      Write env buffer bsize t flush p = (true, p') →
      ∃ evs : List Event, p'.trace = p.trace ++ evs ∧
        (bsize : Int) ≤ positiveWriteSum evs ∧
        ((∀ a ∈ engineWrites evs, a.2 ≤ a.1) → positiveWriteSum evs = (bsize : Int)) := by
  intro bsize
  induction bsize using Nat.strong_induction_on with
  | _ n ih =>
    intro buffer t p p' h
    rcases hw : env.call (Call.isWritable t) p.world with ⟨w, s1⟩
    rcases hr : env.call (Call.BIO_write p.bbio buffer (toInt32 n)) s1 with ⟨rc, s2⟩
    rcases ht : env.call (Call.doThrottle rc true true) s2 with ⟨r, s3⟩
    rw [Write] at h
    by_cases h0 : n = 0
    · simp [h0] at h
      subst h h0
      exact ⟨[], by simp, by simp [positiveWriteSum, engineWrites],
        by simp [positiveWriteSum, engineWrites]⟩
    by_cases hw0 : w = 0
    · simp [ext, hw, h0, hw0] at h
    by_cases hrc : rc ≤ 0
    · simp [ext, hw, hr, h0, hw0, hrc] at h
      split_ifs at h <;> simp at h
    have hpos : 0 < rc := by omega
    by_cases hlt : rc < n
    · simp [ext, hw, hr, ht, h0, hw0, hrc, hlt] at h
      obtain ⟨evs, htr, hge, heq⟩ := ih _ (by omega) _ _ _ _ h
      refine ⟨Event.call (Call.isWritable t) w ::
        Event.call (Call.BIO_write p.bbio buffer (toInt32 n)) rc ::
        Event.call (Call.doThrottle rc true true) r :: evs, ?_, ?_, ?_⟩
      · rw [htr]; simp
      · simp only [positiveWriteSum_cons, writeArgs, hpos, if_true]
        omega
      · intro hc
        simp only [positiveWriteSum_cons, writeArgs, hpos, if_true]
        have hc2 : ∀ a ∈ engineWrites evs, a.2 ≤ a.1 := by
          intro a ha
          apply hc a
          simp [engineWrites, writeArgs] at ha ⊢
          exact Or.inr ha
        have := heq hc2
        omega
    · simp [ext, hw, hr, h0, hw0, hrc, hlt] at h
      subst h
      refine ⟨[Event.call (Call.isWritable t) w,
        Event.call (Call.BIO_write p.bbio buffer (toInt32 n)) rc], by simp, ?_, ?_⟩
      · simp only [positiveWriteSum_cons, positiveWriteSum_nil, writeArgs, hpos, if_true]
        omega
      · intro hc
        have hle := toInt32_le_self n
        have hc1 : rc ≤ toInt32 n := by
          have := hc (toInt32 n, rc) (by simp [engineWrites, writeArgs])
          simpa using this
        simp only [positiveWriteSum_cons, positiveWriteSum_nil, writeArgs, hpos, if_true]
        omega

/-- C10.  (1) A `Write` whose transport is writable (answer `w ≠ 0`) and whose
engine write answers `rc` with `0 < rc < bsize` reports `rc` to `doThrottle` as
outbound traffic and then is the `Write` of the remaining `bsize - rc` bytes at
`buffer + rc` with `timeoutms = -1`, whatever the first `timeoutms` was.
(2) Consequently, on every successful `Write` of `bsize` bytes in which each
`BIO_write` answers at most the length it was given (as `BIO_write` does), the
positive engine-write results sum to exactly `bsize`; whatever the answers,
they sum to at least `bsize`. -/
theorem Write_partial_continuation {σ : Type} (env : Env σ) (buffer bsize : Nat)
    (timeoutms : Int) (flush : Bool) (p : Pipe σ) :
    (∀ (w rc r : Int) (s1 s2 s3 : σ),
      env.call (Call.isWritable timeoutms) p.world = (w, s1) → w ≠ 0 →
      env.call (Call.BIO_write p.bbio buffer (toInt32 bsize)) s1 = (rc, s2) →
      0 < rc → rc < bsize →
      env.call (Call.doThrottle rc true true) s2 = (r, s3) →
      Write env buffer bsize timeoutms flush p =
        Write env (buffer + rc.toNat) (bsize - rc.toNat) (-1) flush
          { p with
            world := s3
            trace := p.trace ++ [Event.call (Call.isWritable timeoutms) w,
              Event.call (Call.BIO_write p.bbio buffer (toInt32 bsize)) rc,
              Event.call (Call.doThrottle rc true true) r] }) ∧
    (∀ p' : Pipe σ, Write env buffer bsize timeoutms flush p = (true, p') →
      ∃ evs : List Event, p'.trace = p.trace ++ evs ∧
        (bsize : Int) ≤ positiveWriteSum evs ∧
        ((∀ a ∈ engineWrites evs, a.2 ≤ a.1) → positiveWriteSum evs = (bsize : Int))) := by
  refine ⟨?_, fun p' h => Write_success_sum env flush bsize buffer timeoutms p p' h⟩
  intro w rc r s1 s2 s3 hw hw0 hr hpos hlt ht
  have hb : bsize ≠ 0 := by omega
  conv_lhs => rw [Write]
  simp [ext, hw, hr, ht, hb, hw0, hpos, hlt, not_le.mpr hpos]

theorem wrapInt64_id (x : Int) (h1 : -2 ^ 63 ≤ x) (h2 : x < 2 ^ 63) : wrapInt64 x = x := by
  unfold wrapInt64
  norm_num at h1 h2 ⊢
  omega

theorem toInt32_id (x : Int) (h1 : -2 ^ 31 ≤ x) (h2 : x < 2 ^ 31) : toInt32 x = x := by
  unfold toInt32
  norm_num at h1 h2 ⊢
  omega

/-- With a deadline `0 ≤ T < 2^31` and clock readings `0 ≤ st ≤ now < 2^63`,
the cast of `rtime` to `int` is `max 0 (T - (now - st))`. -/
theorem toInt32_rtime (T st now : Int) (hT0 : 0 ≤ T) (hT : T < 2 ^ 31) (hst : 0 ≤ st)
    (hle : st ≤ now) (hnow : now < 2 ^ 63) :
    toInt32 (rtime T st now) = max 0 (T - (now - st)) ∧
      0 ≤ max 0 (T - (now - st)) ∧ max 0 (T - (now - st)) ≤ T := by
  have hT' : T < 2147483648 := by norm_num at hT; exact hT
  have hnow' : now < 9223372036854775808 := by norm_num at hnow; exact hnow
  have h1 : wrapInt64 (now - st) = now - st :=
    wrapInt64_id _ (by norm_num; omega) (by norm_num; omega)
  have h2 : wrapInt64 (T - (now - st)) = T - (now - st) :=
    wrapInt64_id _ (by norm_num; omega) (by norm_num; omega)
  have h3 : ¬ T < 0 := by omega
  unfold rtime
  simp only [h1, h2, h3, if_false]
  by_cases h4 : T - (now - st) < 0
  · simp only [h4, if_true]
    rw [max_eq_left (by omega)]
    exact ⟨toInt32_id 0 (by norm_num) (by norm_num), le_refl _, hT0⟩
  · simp only [h4, if_false]
    rw [max_eq_right (by omega)]
    exact ⟨toInt32_id _ (by norm_num; omega) (by norm_num; omega), by omega, by omega⟩

theorem waitBoundsFrom_of_quiet (T st : Int) (xs : List Event)
    (hq : ∀ e ∈ xs, isClockOrWait e = false) : ∀ prev, waitBoundsFrom T st prev xs := by
  induction xs with
  | nil => intro prev; simp [waitBoundsFrom]
  | cons e rest ih =>
    intro prev
    have he := hq e (by simp)
    have ih2 := ih (fun e h => hq e (by simp [h]))
    cases e with
    | reason c str => simpa [waitBoundsFrom] using ih2 none
    | call c r =>
      cases c <;> first
        | (simp [isClockOrWait] at he; done)
        | simpa [waitBoundsFrom] using ih2 none

theorem waitBoundsFrom_append (T st : Int) (xs ys : List Event)
    (hy : ∀ prev, waitBoundsFrom T st prev ys) :
    ∀ prev, waitBoundsFrom T st prev xs → waitBoundsFrom T st prev (xs ++ ys) := by
  induction xs with
  | nil => intro prev _; simpa using hy prev
  | cons e rest ih =>
    intro prev h
    cases e with
    | reason c str =>
      simp only [waitBoundsFrom, List.cons_append] at h ⊢
      exact ih _ h
    | call c r =>
      cases c
      all_goals
        simp only [waitBoundsFrom, List.cons_append] at h ⊢
        first
          | exact ih _ h
          | exact ⟨h.1, ih _ h.2⟩

theorem isLoopEvent_not_cert (e : Event) (h : isLoopEvent e = true) :
    isCertQuery e = false := by
  simp [isLoopEvent] at h
  exact h.1

theorem isSetupEvent_not_cert (e : Event) (h : isSetupEvent e = true) :
    isCertQuery e = false := by
  simp [isSetupEvent] at h
  exact h.1.1.1

theorem isSetupEvent_quiet (e : Event) (h : isSetupEvent e = true) :
    isClockOrWait e = false := by
  simp [isSetupEvent] at h
  exact h.1.1.2

theorem isDiagnostic_quiet (e : Event) (h : isDiagnostic e = true) :
    isClockOrWait e = false := by
  cases e with
  | reason c s => rfl
  | call c r => cases c <;> first | rfl | simp [isDiagnostic] at h

theorem clockReading_of_quiet (e : Event) (h : isClockOrWait e = false) :
    clockReading e = none := by
  cases e with
  | reason c s => rfl
  | call c r => cases c <;> first | rfl | simp [isClockOrWait] at h

theorem clockReadings_of_quiet (xs : List Event) (h : ∀ e ∈ xs, isClockOrWait e = false) :
    clockReadings xs = [] := by
  simp only [clockReadings, List.filterMap_eq_nil_iff]
  intro e he
  exact clockReading_of_quiet e (h e he)

theorem clockReadings_append (xs ys : List Event) :
    clockReadings (xs ++ ys) = clockReadings xs ++ clockReadings ys := by
  simp [clockReadings]

/-- What `log_ssl_err` adds to the trace is diagnostic. -/
theorem log_ssl_err_trace {σ : Type} (env : Env σ) (p : Pipe σ) :
    ∃ evs : List Event, (log_ssl_err env p).trace = p.trace ++ evs ∧
      ∀ e ∈ evs, isDiagnostic e = true :=
  (Advances.log_ssl_err env (fun _ h => h) (Advances.refl isDiagnostic p)).2

/-- The trace of the handshake loop: its events are loop events; when it is
left with `res = 1` its last event is a handshake step answering 1; and with a
deadline `0 ≤ T < 2^31` and clock readings in `[st, 2^63)`, `0 ≤ st`, every
readiness wait is bounded by `max 0 (T - elapsed)`. -/
theorem handshake_loop_trace {σ : Type} (env : Env σ) (T st : Int) :
    ∀ (fuel : Nat) (p : Pipe σ) (r : Option Int) (p' : Pipe σ),
      handshake_loop env T st fuel p = some (r, p') →
      ∃ evs : List Event, p'.trace = p.trace ++ evs ∧
        (∀ e ∈ evs, isLoopEvent e = true) ∧
        (r = some 1 → ∃ pre, evs = pre ++ [Event.call (Call.BIO_do_handshake p.bbio) 1]) ∧
        (0 ≤ T → T < 2 ^ 31 → 0 ≤ st →
          (∀ t ∈ clockReadings evs, st ≤ t ∧ t < 2 ^ 63) →
          ∀ prev, waitBoundsFrom T st prev evs) := by
  intro fuel
  induction fuel with
  | zero => intro p r p' h; simp [handshake_loop] at h
  | succ n ih =>
    intro p r p' h
    rcases hh : env.call (Call.BIO_do_handshake p.bbio) p.world with ⟨res, s1⟩
    rcases hq : env.call (Call.BIO_should_retry p.bbio) s1 with ⟨q, s2⟩
    rcases hn : env.call Call.getTimeMS s2 with ⟨now, s3⟩
    rcases hrw : env.call (Call.isReadOrWritable (toInt32 (rtime T st now))) s3 with ⟨ready, s4⟩
    rcases hn2 : env.call Call.getTimeMS s4 with ⟨now2, s5⟩
    rw [handshake_loop_succ env T st n p res q now ready now2 s1 s2 s3 s4 s5 hh hq hn hrw hn2] at h
    split_ifs at h with h1 h2 h3 h4
    · simp only [Option.some.injEq, Prod.mk.injEq] at h
      obtain ⟨hr, hp⟩ := h
      subst hp hr
      refine ⟨_, rfl, ?_, ?_, ?_⟩
      · simp [isLoopEvent, isCertQuery, throttleArgs]
      · intro _; exact ⟨[], by simp [h1]⟩
      · intro _ _ _ _ prev; simp [waitBoundsFrom]
    · simp only [Option.some.injEq, Prod.mk.injEq] at h
      obtain ⟨hr, hp⟩ := h
      subst hp hr
      obtain ⟨evs, htr, hd⟩ := log_ssl_err_trace env
        (after p s2 [Event.call (Call.BIO_do_handshake p.bbio) res,
          Event.call (Call.BIO_should_retry p.bbio) q])
      refine ⟨[Event.call (Call.BIO_do_handshake p.bbio) res,
          Event.call (Call.BIO_should_retry p.bbio) q] ++ evs, ?_, ?_, ?_, ?_⟩
      · rw [htr]; simp [after]
      · intro e he
        simp only [List.cons_append, List.nil_append, List.mem_cons] at he
        rcases he with he | he | he
        · subst he; rfl
        · subst he; rfl
        · exact isLoopEvent_of_isDiagnostic e (hd e he)
      · intro hc; simp at hc
      · intro _ _ _ _ prev
        simp only [List.cons_append, List.nil_append, waitBoundsFrom]
        exact waitBoundsFrom_of_quiet T st evs (fun e he => isDiagnostic_quiet e (hd e he)) none
    · simp only [Option.some.injEq, Prod.mk.injEq] at h
      obtain ⟨hr, hp⟩ := h
      subst hp hr
      refine ⟨_, rfl, ?_, ?_, ?_⟩
      · simp [isLoopEvent, isCertQuery, throttleArgs]
      · intro hc; simp at hc; exact absurd hc h1
      · intro hT0 hT hst hclk prev
        have hnow := hclk now (by simp [clockReadings, clockReading])
        have hb := toInt32_rtime T st now hT0 hT hst hnow.1 hnow.2
        simp only [waitBoundsFrom, and_true]
        exact ⟨hb.1, by rw [hb.1]; exact hb.2.1, by rw [hb.1]; exact hb.2.2⟩
    · obtain ⟨evs, htr, hloop, hlast, hb⟩ := ih _ _ _ h
      refine ⟨[Event.call (Call.BIO_do_handshake p.bbio) res,
          Event.call (Call.BIO_should_retry p.bbio) q, Event.call Call.getTimeMS now,
          Event.call (Call.isReadOrWritable (toInt32 (rtime T st now))) ready,
          Event.call Call.getTimeMS now2] ++ evs, ?_, ?_, ?_, ?_⟩
      · rw [htr]; simp [after]
      · intro e he
        simp only [List.cons_append, List.nil_append, List.mem_cons] at he
        rcases he with he | he | he | he | he | he
        · subst he; rfl
        · subst he; rfl
        · subst he; rfl
        · subst he; rfl
        · subst he; rfl
        · exact hloop e he
      · intro hr
        obtain ⟨pre, hpre⟩ := hlast hr
        refine ⟨[Event.call (Call.BIO_do_handshake p.bbio) res,
          Event.call (Call.BIO_should_retry p.bbio) q, Event.call Call.getTimeMS now,
          Event.call (Call.isReadOrWritable (toInt32 (rtime T st now))) ready,
          Event.call Call.getTimeMS now2] ++ pre, ?_⟩
        rw [hpre]; simp [after]
      · intro hT0 hT hst hclk prev
        have hnow := hclk now (by simp [clockReadings, clockReading])
        have hbd := toInt32_rtime T st now hT0 hT hst hnow.1 hnow.2
        have hrest : ∀ t ∈ clockReadings evs, st ≤ t ∧ t < 2 ^ 63 := by
          intro t ht
          apply hclk t
          simp only [clockReadings, List.cons_append, List.nil_append] at ht ⊢
          simp [clockReading, ht]
        simp only [List.cons_append, List.nil_append, waitBoundsFrom]
        exact ⟨⟨hbd.1, by rw [hbd.1]; exact hbd.2.1, by rw [hbd.1]; exact hbd.2.2⟩,
          hb hT0 hT hst hrest _⟩
    · simp only [Option.some.injEq, Prod.mk.injEq] at h
      obtain ⟨hr, hp⟩ := h
      subst hp hr
      refine ⟨_, rfl, ?_, ?_, ?_⟩
      · simp [isLoopEvent, isCertQuery, throttleArgs]
      · intro hc; simp at hc; exact absurd hc h1
      · intro hT0 hT hst hclk prev
        have hnow := hclk now (by simp [clockReadings, clockReading])
        have hb := toInt32_rtime T st now hT0 hT hst hnow.1 hnow.2
        simp only [waitBoundsFrom, and_true]
        exact ⟨hb.1, by rw [hb.1]; exact hb.2.1, by rw [hb.1]; exact hb.2.2⟩

/-- Lines 177-206 in terms of the answers of the environment: `cert` of
`SSL_get_peer_certificate`, `v` of `SSL_get_verify_result`. -/
theorem ssl_verify_true {σ : Type} (env : Env σ) (h : String) (ssl res : Int)
    (p p' : Pipe σ) (hv : ssl_verify env h ssl res p = (true, p')) :
    res = 1 ∧ ∃ cert r : Int, cert ≠ 0 ∧
      p'.trace = p.trace ++ [Event.call (Call.SSL_get_peer_certificate ssl) cert,
        Event.call (Call.X509_free cert) r,
        Event.call (Call.SSL_get_verify_result ssl) X509_V_OK] := by
  rcases hc : env.call (Call.SSL_get_peer_certificate ssl) p.world with ⟨cert, s1⟩
  rcases hf : env.call (Call.X509_free cert) s1 with ⟨r, s2⟩
  rcases hr : env.call (Call.SSL_get_verify_result ssl) s2 with ⟨v, s3⟩
  unfold ssl_verify at hv
  by_cases h1 : res = 1
  · by_cases h2 : cert = 0
    · simp [ext, hc, h1, h2] at hv
    · by_cases h3 : v = X509_V_OK
      · simp [ext, hc, hf, hr, h1, h2, h3] at hv
        subst hv
        exact ⟨h1, cert, r, h2, by simp⟩
      · simp [ext, hc, hf, hr, h1, h2, h3, reasonString] at hv
        split at hv <;> simp at hv
  · simp [h1] at hv

/-- Lines 177-206 make no clock reading and no readiness wait. -/
theorem ssl_verify_quiet {σ : Type} (env : Env σ) (h : String) (ssl res : Int)
    (p : Pipe σ) :
    ∃ evs : List Event, (ssl_verify env h ssl res p).2.trace = p.trace ++ evs ∧
      ∀ e ∈ evs, isClockOrWait e = false := by
  rcases hc : env.call (Call.SSL_get_peer_certificate ssl) p.world with ⟨cert, s1⟩
  rcases hf : env.call (Call.X509_free cert) s1 with ⟨r, s2⟩
  rcases hr : env.call (Call.SSL_get_verify_result ssl) s2 with ⟨v, s3⟩
  unfold ssl_verify
  by_cases h1 : res = 1
  · by_cases h2 : cert = 0
    · exact ⟨_, by simp [ext, hc, h1, h2]; rfl, by simp [isClockOrWait]⟩
    · by_cases h3 : v = X509_V_OK
      · exact ⟨_, by simp [ext, hc, hf, hr, h1, h2, h3]; rfl, by simp [isClockOrWait]⟩
      · simp only [ext, hc, hf, hr, h1, h2, h3, reasonString, ne_eq, not_true_eq_false,
          not_false_eq_true, if_true, if_false]
        split
        · exact ⟨_, by simp; rfl, by simp [isClockOrWait]⟩
        · exact ⟨_, by simp; rfl, by simp [isClockOrWait]⟩
  · exact ⟨_, by simp [ext, h1]; rfl, by simp [isClockOrWait]⟩

/-- The trace of a successful `ssl_connect`: it ends with a handshake step
answering 1, a non-null peer certificate, its release, and the verification
result `X509_V_OK`; nothing before asks for the certificate or the result. -/
theorem ssl_connect_true_trace {σ : Type} (env : Env σ) (legacy : Bool)
    (p_hostname : String) (timeoutms : Int) (fuel : Nat) (p p' : Pipe σ)
    (h : ssl_connect env legacy p_hostname timeoutms fuel p = some (true, p')) :
    ∃ (pre : List Event) (bio ssl cert r : Int), cert ≠ 0 ∧
      p'.trace = p.trace ++ pre ++ [Event.call (Call.BIO_do_handshake bio) 1,
        Event.call (Call.SSL_get_peer_certificate ssl) cert,
        Event.call (Call.X509_free cert) r,
        Event.call (Call.SSL_get_verify_result ssl) X509_V_OK] ∧
      ∀ e ∈ pre, isCertQuery e = false := by
  rcases ssl_connect_cases env legacy p_hostname timeoutms fuel p true p' h with
    ⟨-, hb⟩ | ⟨ssl, p1, hs, h2⟩
  · simp at hb
  · rcases h2 with ⟨-, hb⟩ | ⟨res, p2, hl, hv⟩
    · simp at hb
    · obtain ⟨hres, cert, r, hcert, htr⟩ := ssl_verify_true env p_hostname ssl res p2 p' hv
      obtain ⟨levs, hltr, hloop, hlast, -⟩ := handshake_loop_trace env timeoutms _ fuel _ _ _ hl
      obtain ⟨pre, hpre⟩ := hlast (by rw [hres])
      have hsetup := ssl_setup_advances env legacy p_hostname p
      rw [hs] at hsetup
      obtain ⟨-, sevs, hstr, hsev⟩ := hsetup
      simp only at hstr
      refine ⟨sevs ++ [Event.call Call.getTimeMS (env.call Call.getTimeMS p1.world).1] ++ pre,
        (ext env Call.getTimeMS p1).2.bbio, ssl, cert, r, hcert, ?_, ?_⟩
      · rw [htr, hltr, hpre, ext_trace, hstr]
        simp only [List.append_assoc, List.cons_append, List.nil_append]
      · intro e he
        simp only [List.append_assoc, List.cons_append, List.nil_append, List.mem_append,
          List.mem_cons] at he
        rcases he with he | he | he
        · exact isSetupEvent_not_cert e (hsev e he)
        · subst he; rfl
        · apply isLoopEvent_not_cert e
          apply hloop e
          rw [hpre]
          exact List.mem_append_left _ he

/-- C1.  Fail-closed handshake.  Whatever the host name, the timeout and the
answers of engine and transport: when `ssl_connect` returns true, the calls it
made end with a handshake step answering 1, then `SSL_get_peer_certificate`
answering a non-null certificate, its release, then `SSL_get_verify_result`
answering `X509_V_OK`, and these are its only certificate and verification
queries; and when, among the calls it made, `SSL_get_peer_certificate`
answered `NULL` or `SSL_get_verify_result` answered anything but `X509_V_OK`,
`ssl_connect` returns false. -/
theorem ssl_connect_fail_closed {σ : Type} (env : Env σ) (legacy : Bool)
    (p_hostname : String) (timeoutms : Int) (fuel : Nat) (p : Pipe σ) (b : Bool)
    (p' : Pipe σ)
    (h : ssl_connect env legacy p_hostname timeoutms fuel p = some (b, p')) :
    (b = true →
      ∃ (pre : List Event) (bio ssl cert r : Int), cert ≠ 0 ∧
        p'.trace = p.trace ++ pre ++ [Event.call (Call.BIO_do_handshake bio) 1,
          Event.call (Call.SSL_get_peer_certificate ssl) cert,
          Event.call (Call.X509_free cert) r,
          Event.call (Call.SSL_get_verify_result ssl) X509_V_OK] ∧
        ∀ e ∈ pre, isCertQuery e = false) ∧
    (∀ evs : List Event, p'.trace = p.trace ++ evs →
      ((∃ ssl, Event.call (Call.SSL_get_peer_certificate ssl) 0 ∈ evs) ∨
        (∃ ssl v, v ≠ X509_V_OK ∧ Event.call (Call.SSL_get_verify_result ssl) v ∈ evs)) →
      b = false) := by
  constructor
  · intro hb
    subst hb
    exact ssl_connect_true_trace env legacy p_hostname timeoutms fuel p p' h
  · intro evs hevs hbad
    cases b with
    | false => rfl
    | true =>
      exfalso
      obtain ⟨pre, bio, ssl, cert, r, hcert, htr, hpre⟩ :=
        ssl_connect_true_trace env legacy p_hostname timeoutms fuel p p' h
      rw [hevs, List.append_assoc] at htr
      have he := List.append_cancel_left htr
      subst he
      rcases hbad with ⟨ssl', hm⟩ | ⟨ssl', v, hv, hm⟩
      · simp only [List.mem_append, List.mem_cons, List.mem_singleton, Event.call.injEq,
          Call.SSL_get_peer_certificate.injEq, reduceCtorEq, false_and, and_false,
          List.not_mem_nil, or_false, false_or] at hm
        rcases hm with hm | hm
        · have := hpre _ hm
          simp [isCertQuery] at this
        · exact hcert hm.2.symm
      · simp only [List.mem_append, List.mem_cons, List.mem_singleton, Event.call.injEq,
          Call.SSL_get_verify_result.injEq, reduceCtorEq, false_and, and_false,
          List.not_mem_nil, or_false, false_or] at hm
        rcases hm with hm | hm
        · have := hpre _ hm
          simp [isCertQuery] at this
        · exact hv hm.2

/-- The wait bounds of a whole run: set-up events, the first clock reading
`st`, the events of the loop, the events of lines 177-206. -/
theorem waitBoundsFrom_run (T st : Int) (sevs levs vevs : List Event)
    (hs : ∀ e ∈ sevs, isClockOrWait e = false) (hv : ∀ e ∈ vevs, isClockOrWait e = false)
    (hl : 0 ≤ st → (∀ t ∈ clockReadings levs, st ≤ t ∧ t < 2 ^ 63) →
      ∀ prev, waitBoundsFrom T st prev levs)
    (hc : ClockOk (sevs ++ Event.call Call.getTimeMS st :: (levs ++ vevs))) :
    waitBoundsFrom T
      ((clockReadings (sevs ++ Event.call Call.getTimeMS st :: (levs ++ vevs))).headD 0)
      none (sevs ++ Event.call Call.getTimeMS st :: (levs ++ vevs)) := by
  have hcr : clockReadings (sevs ++ Event.call Call.getTimeMS st :: (levs ++ vevs))
      = st :: clockReadings levs := by
    rw [clockReadings_append, clockReadings_of_quiet sevs hs]
    have : clockReadings (Event.call Call.getTimeMS st :: (levs ++ vevs))
        = st :: clockReadings (levs ++ vevs) := by
      simp [clockReadings, clockReading]
    rw [this, clockReadings_append, clockReadings_of_quiet vevs hv]
    simp
  unfold ClockOk at hc
  rw [hcr] at hc ⊢
  obtain ⟨hpw, hrange⟩ := hc
  have hst : 0 ≤ st := (hrange st (by simp)).1
  have hclk : ∀ t ∈ clockReadings levs, st ≤ t ∧ t < 2 ^ 63 := by
    intro t ht
    exact ⟨(List.pairwise_cons.mp hpw).1 t ht, (hrange t (by simp [ht])).2⟩
  simp only [List.headD_cons]
  apply waitBoundsFrom_append T st sevs _ _ none (waitBoundsFrom_of_quiet T st sevs hs none)
  intro prev
  simp only [waitBoundsFrom]
  exact waitBoundsFrom_append T st levs vevs (waitBoundsFrom_of_quiet T st vevs hv) _
    (hl hst hclk _)

/-- The handshake of a peer that never responds: every handshake step asks for
a retry and the transport never becomes ready.  The loop is left after one
step and one wait, with `res ≠ 1`. -/
theorem handshake_loop_stalled {σ : Type} (env : Env σ) (T st : Int)
    (hstep : ∀ b s, (env.call (Call.BIO_do_handshake b) s).1 ≠ 1)
    (hretry : ∀ b s, (env.call (Call.BIO_should_retry b) s).1 ≠ 0)
    (hwait : ∀ t s, (env.call (Call.isReadOrWritable t) s).1 = 0)
    (fuel : Nat) (p : Pipe σ) :
    ∃ (res q now : Int) (s : σ), res ≠ 1 ∧
      handshake_loop env T st (fuel + 1) p =
        some (some res, after p s [Event.call (Call.BIO_do_handshake p.bbio) res,
          Event.call (Call.BIO_should_retry p.bbio) q, Event.call Call.getTimeMS now,
          Event.call (Call.isReadOrWritable (toInt32 (rtime T st now))) 0]) := by
  rcases hh : env.call (Call.BIO_do_handshake p.bbio) p.world with ⟨res, s1⟩
  rcases hq : env.call (Call.BIO_should_retry p.bbio) s1 with ⟨q, s2⟩
  rcases hn : env.call Call.getTimeMS s2 with ⟨now, s3⟩
  rcases hrw : env.call (Call.isReadOrWritable (toInt32 (rtime T st now))) s3 with ⟨ready, s4⟩
  rcases hn2 : env.call Call.getTimeMS s4 with ⟨now2, s5⟩
  have h1 : res ≠ 1 := by have := hstep p.bbio p.world; rw [hh] at this; exact this
  have h2 : q ≠ 0 := by have := hretry p.bbio s1; rw [hq] at this; exact this
  have h3 : ready = 0 := by
    have := hwait (toInt32 (rtime T st now)) s3
    rw [hrw] at this; exact this
  subst h3
  refine ⟨res, q, now, s4, h1, ?_⟩
  rw [handshake_loop_succ env T st fuel p res q now 0 now2 s1 s2 s3 s4 s5 hh hq hn hrw hn2]
  simp [h1, h2]

/-- C9.  Handshake deadline, for `0 ≤ T < 2^31` (a non-negative `int`).
(1) On a clock whose readings are non-negative `int64` values that never
decrease, every readiness wait of `ssl_connect` comes right after a clock
reading `t` and is given the bound `max 0 (T - (t - start))`, `start` being the
first clock reading; the bound lies in `[0, T]`, so the cast to `int` loses
nothing.  (2) When every handshake step asks for a retry and the transport
never becomes ready, `ssl_connect` returns false (it never runs out of fuel and
never returns true), and once the set-up has succeeded it does so after exactly
one clock reading, one handshake step, one retry query, one clock reading and
one readiness wait, followed by the log line `SSL connect timeout`. -/
theorem ssl_connect_deadline {σ : Type} (env : Env σ) (legacy : Bool)
    (p_hostname : String) (T : Int) (hT0 : 0 ≤ T) (hT : T < 2 ^ 31) :
    (∀ (fuel : Nat) (p : Pipe σ) (b : Bool) (p' : Pipe σ),
      ssl_connect env legacy p_hostname T fuel p = some (b, p') →
      ∃ evs : List Event, p'.trace = p.trace ++ evs ∧
        (ClockOk evs → waitBoundsFrom T ((clockReadings evs).headD 0) none evs)) ∧
    ((∀ b s, (env.call (Call.BIO_do_handshake b) s).1 ≠ 1) →
      (∀ b s, (env.call (Call.BIO_should_retry b) s).1 ≠ 0) →
      (∀ t s, (env.call (Call.isReadOrWritable t) s).1 = 0) →
      ∀ (fuel : Nat) (p : Pipe σ),
        ∃ p' : Pipe σ, ssl_connect env legacy p_hostname T (fuel + 1) p = some (false, p') ∧
          ∀ (ssl : Int) (p1 : Pipe σ), ssl_setup env legacy p_hostname p = (some ssl, p1) →
            ∃ (st res q now r : Int) (s : σ), res ≠ 1 ∧
              p' = after p1 s [Event.call Call.getTimeMS st,
                Event.call (Call.BIO_do_handshake p1.bbio) res,
                Event.call (Call.BIO_should_retry p1.bbio) q,
                Event.call Call.getTimeMS now,
                Event.call (Call.isReadOrWritable (toInt32 (rtime T st now))) 0,
                Event.call (Call.Log "SSL connect timeout" LogLevel.LL_WARNING) r]) := by
  constructor
  · intro fuel p b p' h
    have hsetup := ssl_setup_advances env legacy p_hostname p
    rcases ssl_connect_cases env legacy p_hostname T fuel p b p' h with
      ⟨hs, -⟩ | ⟨ssl, p1, hs, h2⟩
    · rw [hs] at hsetup
      obtain ⟨-, sevs, hstr, hsev⟩ := hsetup
      exact ⟨sevs, hstr, fun _ =>
        waitBoundsFrom_of_quiet T _ sevs (fun e he => isSetupEvent_quiet e (hsev e he)) none⟩
    · rw [hs] at hsetup
      obtain ⟨-, sevs, hstr, hsev⟩ := hsetup
      simp only at hstr
      have hsq : ∀ e ∈ sevs, isClockOrWait e = false :=
        fun e he => isSetupEvent_quiet e (hsev e he)
      rcases h2 with ⟨hl, -⟩ | ⟨res, p2, hl, hv⟩
      · obtain ⟨levs, hltr, -, -, hb⟩ := handshake_loop_trace env T _ fuel _ _ _ hl
        refine ⟨sevs ++ Event.call Call.getTimeMS (ext env Call.getTimeMS p1).1 ::
          (levs ++ []), ?_, ?_⟩
        · rw [hltr, ext_trace, hstr]; simp [ext_fst]
        · intro hc
          exact waitBoundsFrom_run T _ sevs levs [] hsq (by simp) (hb hT0 hT) hc
      · obtain ⟨levs, hltr, -, -, hb⟩ := handshake_loop_trace env T _ fuel _ _ _ hl
        obtain ⟨vevs, hvtr, hvq⟩ := ssl_verify_quiet env p_hostname ssl res p2
        rw [hv] at hvtr
        simp only at hvtr
        refine ⟨sevs ++ Event.call Call.getTimeMS (ext env Call.getTimeMS p1).1 ::
          (levs ++ vevs), ?_, ?_⟩
        · rw [hvtr, hltr, ext_trace, hstr]; simp [ext_fst]
        · intro hc
          exact waitBoundsFrom_run T _ sevs levs vevs hsq hvq (hb hT0 hT) hc
  · intro hstep hretry hwait fuel p
    unfold ssl_connect
    rcases hs : ssl_setup env legacy p_hostname p with ⟨o, p1⟩
    cases o with
    | none => exact ⟨p1, rfl, fun ssl q hq => by simp at hq⟩
    | some ssl =>
      rcases hn : env.call Call.getTimeMS p1.world with ⟨st, s0⟩
      obtain ⟨res, q, now, s, hres, hl⟩ :=
        handshake_loop_stalled env T st hstep hretry hwait fuel (after p1 s0 [Event.call Call.getTimeMS st])
      rcases hlog : env.call (Call.Log "SSL connect timeout" LogLevel.LL_WARNING) s with ⟨r, s'⟩
      have he : ext env Call.getTimeMS p1 = (st, after p1 s0 [Event.call Call.getTimeMS st]) := by
        simp [ext, after, hn]
      refine ⟨after p1 s' [Event.call Call.getTimeMS st,
        Event.call (Call.BIO_do_handshake p1.bbio) res,
        Event.call (Call.BIO_should_retry p1.bbio) q,
        Event.call Call.getTimeMS now,
        Event.call (Call.isReadOrWritable (toInt32 (rtime T st now))) 0,
        Event.call (Call.Log "SSL connect timeout" LogLevel.LL_WARNING) r], ?_, ?_⟩
      · simp only [he, hl]
        simp [ssl_verify, hres, ext, after, hlog]
      · intro ssl' q1 hq1
        simp only [Prod.mk.injEq, Option.some.injEq] at hq1
        obtain ⟨-, hp⟩ := hq1
        subst hp
        exact ⟨st, res, q, now, r, s', hres, rfl⟩

/-- C1, at a concrete run: the handshake answered by `retryThenSuccessScript`
returns true and its trace ends as the theorem says. -/
theorem ssl_connect_fail_closed_witness :
    ssl_connect scriptEnv false "h" 50 5 (OpenSSLPipe retryThenSuccessScript) =
        some (true,
          { bbio := 3, ctx := 2, has_error := false, world := [],
            trace := retryThenSuccessEvents }) ∧
      ∃ (pre : List Event) (bio ssl cert r : Int), cert ≠ 0 ∧
        retryThenSuccessEvents = [] ++ pre ++ [Event.call (Call.BIO_do_handshake bio) 1,
          Event.call (Call.SSL_get_peer_certificate ssl) cert,
          Event.call (Call.X509_free cert) r,
          Event.call (Call.SSL_get_verify_result ssl) X509_V_OK] ∧
        ∀ e ∈ pre, isCertQuery e = false :=
  ⟨by decide,
    (ssl_connect_fail_closed scriptEnv false "h" 50 5 (OpenSSLPipe retryThenSuccessScript) true
      { bbio := 3, ctx := 2, has_error := false, world := [],
        trace := retryThenSuccessEvents } (by decide)).1 rfl⟩

/-- With `timeoutms < 0` the loop of `ssl_connect` is left after its first
pass even when the step asked for a retry (`res ≠ 1`, `q ≠ 0`) and the
transport is ready (`ready ≠ 0`): the elapsed time `now2 - st`, not negative,
is not below `timeoutms`. -/
theorem handshake_loop_no_deadline_single_pass {σ : Type} (env : Env σ) (t st : Int)
    (fuel : Nat) (p : Pipe σ) (res q now ready now2 : Int) (s1 s2 s3 s4 s5 : σ)
    (ht : t < 0)
    (hh : env.call (Call.BIO_do_handshake p.bbio) p.world = (res, s1)) (hres : res ≠ 1)
    (hq : env.call (Call.BIO_should_retry p.bbio) s1 = (q, s2)) (hq0 : q ≠ 0)
    (hn : env.call Call.getTimeMS s2 = (now, s3))
    (hrw : env.call (Call.isReadOrWritable (-1)) s3 = (ready, s4)) (hready : ready ≠ 0)
    (hn2 : env.call Call.getTimeMS s4 = (now2, s5))
    (hel : 0 ≤ wrapInt64 (now2 - st)) :
    handshake_loop env t st (fuel + 1) p =
      some (some res, after p s5 [Event.call (Call.BIO_do_handshake p.bbio) res,
        Event.call (Call.BIO_should_retry p.bbio) q, Event.call Call.getTimeMS now,
        Event.call (Call.isReadOrWritable (-1)) ready,
        Event.call Call.getTimeMS now2]) := by
  have hr : toInt32 (rtime t st now) = -1 := by
    simp [rtime, ht, toInt32]
  have hlt : ¬ wrapInt64 (now2 - st) < t := by omega
  rw [handshake_loop_succ env t st fuel p res q now ready now2 s1 s2 s3 s4 s5 hh hq hn
    (by rw [hr]; exact hrw) hn2]
  simp [hres, hq0, hready, hlt, hr]

/-- C2, the code at the failing input.  The peer of `retryThenSuccessScript`
asks for one retry, the transport is ready, and the next handshake step would
succeed.  With a deadline of 50 ms `ssl_connect` returns true; with
`timeoutms = -1` (no deadline) it makes one handshake step and one readiness
wait `isReadOrWritable(-1)`, leaves the loop because `0 < -1` is false, logs
`SSL connect timeout` and returns false. -/
theorem ssl_connect_no_deadline_times_out :
    (ssl_connect scriptEnv false "h" 50 5 (OpenSSLPipe retryThenSuccessScript)).map Prod.fst
        = some true ∧
      ssl_connect scriptEnv false "h" (-1) 5 (OpenSSLPipe retryThenSuccessScript) =
        some (false,
          { bbio := 3, ctx := 2, has_error := false, world := [9, 0, 0],
            trace := setupEvents ++
            [Event.call Call.getTimeMS 100,
              Event.call (Call.BIO_do_handshake 3) (-1),
              Event.call (Call.BIO_should_retry 3) 1,
              Event.call Call.getTimeMS 100,
              Event.call (Call.isReadOrWritable (-1)) 1,
              Event.call Call.getTimeMS 100,
              Event.call (Call.Log "SSL connect timeout" LogLevel.LL_WARNING) 1] }) := by
  constructor <;> decide

/-- Every successful `Write` of `bsize > 0` bytes reports fewer than `bsize`
bytes to `doThrottle` as outbound traffic: the last engine write is never
reported. -/
theorem Write_outgoing_throttled_lt {σ : Type} (env : Env σ) (flush : Bool) :
    ∀ (bsize buffer : Nat) (t : Int) (p p' : Pipe σ), 0 < bsize →
      Write env buffer bsize t flush p = (true, p') →
      ∃ evs : List Event, p'.trace = p.trace ++ evs ∧
        outgoingThrottled evs < (bsize : Int) := by
  intro bsize
  induction bsize using Nat.strong_induction_on with
  | _ n ih =>
    intro buffer t p p' hn h
    rcases hw : env.call (Call.isWritable t) p.world with ⟨w, s1⟩
    rcases hr : env.call (Call.BIO_write p.bbio buffer (toInt32 n)) s1 with ⟨rc, s2⟩
    rcases ht : env.call (Call.doThrottle rc true true) s2 with ⟨r, s3⟩
    rw [Write] at h
    have h0 : n ≠ 0 := by omega
    by_cases hw0 : w = 0
    · simp [ext, hw, h0, hw0] at h
    by_cases hrc : rc ≤ 0
    · simp [ext, hw, hr, h0, hw0, hrc] at h
      split_ifs at h <;> simp at h
    have hpos : 0 < rc := by omega
    by_cases hlt : rc < n
    · simp [ext, hw, hr, ht, h0, hw0, hrc, hlt] at h
      obtain ⟨evs, htr, hlt2⟩ := ih _ (by omega) _ _ _ _ (by omega) h
      refine ⟨Event.call (Call.isWritable t) w ::
        Event.call (Call.BIO_write p.bbio buffer (toInt32 n)) rc ::
        Event.call (Call.doThrottle rc true true) r :: evs, ?_, ?_⟩
      · rw [htr]; simp
      · have : outgoingThrottled (Event.call (Call.isWritable t) w ::
            Event.call (Call.BIO_write p.bbio buffer (toInt32 n)) rc ::
            Event.call (Call.doThrottle rc true true) r :: evs)
            = rc + outgoingThrottled evs := by
          simp [outgoingThrottled, throttleCalls, throttleArgs]
        rw [this]
        omega
    · simp [ext, hw, hr, h0, hw0, hrc, hlt] at h
      subst h
      refine ⟨[Event.call (Call.isWritable t) w,
        Event.call (Call.BIO_write p.bbio buffer (toInt32 n)) rc], by simp, ?_⟩
      simp [outgoingThrottled, throttleCalls, throttleArgs]
      omega

/-- C3, the code at the failing inputs.  A write of 5 bytes that the engine
takes at once returns true without any `doThrottle` call (0 bytes accounted,
not 5); a write of 5 bytes that the engine takes as 3 and then 2 returns true
with the single call `doThrottle(3, true, true)` (3 bytes accounted, not 5). -/
theorem Write_last_chunk_not_throttled :
    (Write scriptEnv 0 5 10 false (OpenSSLPipe [1, 5])).1 = true ∧
      throttleCalls (Write scriptEnv 0 5 10 false (OpenSSLPipe [1, 5])).2.trace = [] ∧
      outgoingThrottled (Write scriptEnv 0 5 10 false (OpenSSLPipe [1, 5])).2.trace = 0 ∧
      (Write scriptEnv 0 5 10 false (OpenSSLPipe [1, 3, 0, 1, 2])).1 = true ∧
      throttleCalls (Write scriptEnv 0 5 10 false (OpenSSLPipe [1, 3, 0, 1, 2])).2.trace
        = [(3, true, true)] ∧
      outgoingThrottled (Write scriptEnv 0 5 10 false (OpenSSLPipe [1, 3, 0, 1, 2])).2.trace
        = 3 := by
  have h1 : Write scriptEnv 0 5 10 false (OpenSSLPipe [1, 5]) =
      (true, after (OpenSSLPipe [1, 5]) [] [Event.call (Call.isWritable 10) 1,
        Event.call (Call.BIO_write 0 0 5) 5]) := by
    simp [Write, ext, scriptEnv, OpenSSLPipe, toInt32, after]
  have h2 : Write scriptEnv 0 5 10 false (OpenSSLPipe [1, 3, 0, 1, 2]) =
      (true, after (OpenSSLPipe [1, 3, 0, 1, 2]) [] [Event.call (Call.isWritable 10) 1,
        Event.call (Call.BIO_write 0 0 5) 3, Event.call (Call.doThrottle 3 true true) 0,
        Event.call (Call.isWritable (-1)) 1, Event.call (Call.BIO_write 0 3 2) 2]) := by
    simp [Write, ext, scriptEnv, OpenSSLPipe, toInt32, after]
  rw [h1, h2]
  simp [after, OpenSSLPipe, throttleCalls, throttleArgs, outgoingThrottled]

/-- C4, at a concrete run: one retry round, then an engine read of 4 bytes. -/
theorem Read_inbound_accounting_witness :
    Read scriptEnv 0 10 5 5 (OpenSSLPipe [0, 1, -1, 1, 3, 4, 0]) =
        some (4, after (OpenSSLPipe [0, 1, -1, 1, 3, 4, 0]) []
          [Event.call (Call.BIO_pending 0) 0, Event.call (Call.isReadable 5) 1,
            Event.call (Call.BIO_read 0 0 10) (-1), Event.call (Call.BIO_should_retry 0) 1,
            Event.call (Call.BIO_pending 0) 3, Event.call (Call.BIO_read 0 0 10) 4,
            Event.call (Call.doThrottle 4 false true) 0]) ∧
      ∃ evs : List Event,
        (after (OpenSSLPipe [0, 1, -1, 1, 3, 4, 0]) []
          [Event.call (Call.BIO_pending 0) 0, Event.call (Call.isReadable 5) 1,
            Event.call (Call.BIO_read 0 0 10) (-1), Event.call (Call.BIO_should_retry 0) 1,
            Event.call (Call.BIO_pending 0) 3, Event.call (Call.BIO_read 0 0 10) 4,
            Event.call (Call.doThrottle 4 false true) 0]).trace
          = (OpenSSLPipe [0, 1, -1, 1, 3, 4, 0]).trace ++ evs ∧
        (0 < 4 → throttleCalls evs = [(((4 : Nat) : Int), false, true)]) ∧
        (4 = 0 → throttleCalls evs = []) :=
  ⟨by decide,
    Read_inbound_accounting scriptEnv 0 10 5 5 (OpenSSLPipe [0, 1, -1, 1, 3, 4, 0]) 4 _
      (by decide)⟩

/-- C5, at a concrete run: a `Read` with no data on an object whose
`has_error` is already true. -/
theorem has_error_sticky_witness :
    (OpenSSLPipe [0, 0]).has_error = false ∧
      runOp scriptEnv 1 (Op.Read 0 10 5)
          { bbio := 0, ctx := 0, has_error := true, world := [0, 0], trace := [] } =
        some { bbio := 0, ctx := 0, has_error := true, world := [],
               trace := [Event.call (Call.BIO_pending 0) 0,
                 Event.call (Call.isReadable 5) 0] } ∧
      (Pipe.mk 0 0 true ([] : List Int) [Event.call (Call.BIO_pending 0) 0,
        Event.call (Call.isReadable 5) 0]).has_error = true :=
  ⟨(has_error_sticky scriptEnv).1 [0, 0], by decide,
    (has_error_sticky scriptEnv).2 (Op.Read 0 10 5) 1
      { bbio := 0, ctx := 0, has_error := true, world := [0, 0], trace := [] } _ rfl
      (by decide)⟩

/-- C6, at two concrete runs: a failed engine write without the retry signal
(`has_error` becomes true) and one with it (`has_error` stays false). -/
theorem Write_failure_witness :
    Write scriptEnv 0 5 10 false (OpenSSLPipe [1, -1, 0]) =
        (false, { bbio := 0, ctx := 0, has_error := true, world := [],
                  trace := [Event.call (Call.isWritable 10) 1,
                    Event.call (Call.BIO_write 0 0 5) (-1),
                    Event.call (Call.BIO_should_retry 0) 0] }) ∧
      Write scriptEnv 0 5 10 false (OpenSSLPipe [1, -1, 1]) =
        (false, { bbio := 0, ctx := 0, has_error := false, world := [],
                  trace := [Event.call (Call.isWritable 10) 1,
                    Event.call (Call.BIO_write 0 0 5) (-1),
                    Event.call (Call.BIO_should_retry 0) 1] }) :=
  ⟨Write_failure scriptEnv 0 5 10 false (OpenSSLPipe [1, -1, 0]) 1 (-1) 0 [-1, 0] [0] []
      (by decide) rfl (by decide) rfl (by decide) rfl,
    Write_failure scriptEnv 0 5 10 false (OpenSSLPipe [1, -1, 1]) 1 (-1) 1 [-1, 1] [1] []
      (by decide) rfl (by decide) rfl (by decide) rfl⟩

/-- C7, at concrete runs: nothing pending and the transport not readable; a
failed engine read without the retry signal. -/
theorem Read_no_data_is_not_an_error_witness :
    Read scriptEnv 0 10 5 1 (OpenSSLPipe [0, 0]) =
        some (0, { bbio := 0, ctx := 0, has_error := false, world := [],
                   trace := [Event.call (Call.BIO_pending 0) 0,
                     Event.call (Call.isReadable 5) 0] }) ∧
      Read scriptEnv 0 10 5 1 (OpenSSLPipe [3, -1, 0]) =
        some (0, { bbio := 0, ctx := 0, has_error := true, world := [],
                   trace := [Event.call (Call.BIO_pending 0) 3,
                     Event.call (Call.BIO_read 0 0 10) (-1),
                     Event.call (Call.BIO_should_retry 0) 0] }) ∧
      ((0 : Nat) = 0 ∧ (Pipe.mk 0 0 true ([] : List Int)
        [Event.call (Call.BIO_pending 0) 3, Event.call (Call.BIO_read 0 0 10) (-1),
          Event.call (Call.BIO_should_retry 0) 0]).has_error = true) :=
  ⟨(Read_no_data_is_not_an_error scriptEnv 0 10 5 0 (OpenSSLPipe [0, 0])).1 0 [0] []
      rfl (by decide) rfl,
    (Read_no_data_is_not_an_error scriptEnv 0 10 5 0 (OpenSSLPipe [3, -1, 0])).2.1
      3 0 (-1) [-1, 0] [-1, 0] [0] [] rfl (fun h => absurd h (by decide)) (fun _ => rfl)
      rfl (by decide) rfl,
    (Read_no_data_is_not_an_error scriptEnv 0 10 5 1 (OpenSSLPipe [3, -1, 0])).2.2 0
      { bbio := 0, ctx := 0, has_error := true, world := [],
        trace := [Event.call (Call.BIO_pending 0) 3,
          Event.call (Call.BIO_read 0 0 10) (-1),
          Event.call (Call.BIO_should_retry 0) 0] } 0 (by decide) (by decide)⟩

/-- C9, at concrete runs.  With a deadline of 50 ms: on the clock of
`retryThenSuccessScript` (standing at 100) the one readiness wait is given the
bound 50; against the peer of `stalledEnv` the handshake returns false. -/
theorem ssl_connect_deadline_witness :
    (ClockOk retryThenSuccessEvents ∧
      ∃ evs : List Event, retryThenSuccessEvents = [] ++ evs ∧
        (ClockOk evs → waitBoundsFrom 50 ((clockReadings evs).headD 0) none evs)) ∧
    (∃ p' : Pipe Unit,
      ssl_connect stalledEnv false "h" 50 1 (OpenSSLPipe ()) = some (false, p') ∧
        ∀ (ssl : Int) (p1 : Pipe Unit),
          ssl_setup stalledEnv false "h" (OpenSSLPipe ()) = (some ssl, p1) →
          ∃ (st res q now r : Int) (s : Unit), res ≠ 1 ∧
            p' = after p1 s [Event.call Call.getTimeMS st,
              Event.call (Call.BIO_do_handshake p1.bbio) res,
              Event.call (Call.BIO_should_retry p1.bbio) q,
              Event.call Call.getTimeMS now,
              Event.call (Call.isReadOrWritable (toInt32 (rtime 50 st now))) 0,
              Event.call (Call.Log "SSL connect timeout" LogLevel.LL_WARNING) r]) :=
  ⟨⟨by simp [ClockOk, clockReadings, clockReading, retryThenSuccessEvents, setupEvents],
      (ssl_connect_deadline scriptEnv false "h" 50 (by decide) (by norm_num)).1 5
        (OpenSSLPipe retryThenSuccessScript) true
        { bbio := 3, ctx := 2, has_error := false, world := [],
          trace := retryThenSuccessEvents } (by decide)⟩,
    (ssl_connect_deadline stalledEnv false "h" 50 (by decide) (by norm_num)).2
      (fun _ _ => by simp [stalledEnv, constEnv])
      (fun _ _ => by simp [stalledEnv, constEnv])
      (fun _ _ => by simp [stalledEnv, constEnv]) 0 (OpenSSLPipe ())⟩

/-- C10, at a concrete run: 5 bytes written as 3 and then 2, by an engine that
never answers more than the length it is given; the results sum to 5. -/
theorem Write_partial_continuation_witness :
    Write scriptEnv 0 5 10 false (OpenSSLPipe [1, 3, 0, 1, 2]) =
        Write scriptEnv (0 + (3 : Int).toNat) (5 - (3 : Int).toNat) (-1) false
          { bbio := 0, ctx := 0, has_error := false, world := [1, 2],
            trace := [Event.call (Call.isWritable 10) 1,
              Event.call (Call.BIO_write 0 0 5) 3,
              Event.call (Call.doThrottle 3 true true) 0] } ∧
      (∃ evs : List Event,
        [Event.call (Call.isWritable 10) 1, Event.call (Call.BIO_write 0 0 5) 3,
          Event.call (Call.doThrottle 3 true true) 0, Event.call (Call.isWritable (-1)) 1,
          Event.call (Call.BIO_write 0 3 2) 2] = [] ++ evs ∧
        ((5 : Nat) : Int) ≤ positiveWriteSum evs ∧
        ((∀ a ∈ engineWrites evs, a.2 ≤ a.1) → positiveWriteSum evs = ((5 : Nat) : Int))) ∧
      engineWrites [Event.call (Call.isWritable 10) 1, Event.call (Call.BIO_write 0 0 5) 3,
        Event.call (Call.doThrottle 3 true true) 0, Event.call (Call.isWritable (-1)) 1,
        Event.call (Call.BIO_write 0 3 2) 2] = [(5, 3), (2, 2)] ∧
      positiveWriteSum [Event.call (Call.isWritable 10) 1,
        Event.call (Call.BIO_write 0 0 5) 3, Event.call (Call.doThrottle 3 true true) 0,
        Event.call (Call.isWritable (-1)) 1, Event.call (Call.BIO_write 0 3 2) 2] = 5 :=
  ⟨(Write_partial_continuation scriptEnv 0 5 10 false (OpenSSLPipe [1, 3, 0, 1, 2])).1
      1 3 0 [3, 0, 1, 2] [0, 1, 2] [1, 2] rfl (by decide) rfl (by decide) (by decide) rfl,
    (Write_partial_continuation scriptEnv 0 5 10 false (OpenSSLPipe [1, 3, 0, 1, 2])).2
      { bbio := 0, ctx := 0, has_error := false, world := [],
        trace := [Event.call (Call.isWritable 10) 1, Event.call (Call.BIO_write 0 0 5) 3,
          Event.call (Call.doThrottle 3 true true) 0, Event.call (Call.isWritable (-1)) 1,
          Event.call (Call.BIO_write 0 3 2) 2] }
      (by simp [Write, ext, scriptEnv, OpenSSLPipe, toInt32]),
    by decide, by decide⟩

end OpenSSLPipe
